import Mathlib

set_option maxRecDepth 10000

/-!
Shallow embedding of the TRAC T64 interpreter from `src/main.py`.

Python strings are modelled as `List Char`; the insertion-ordered Python
`dict` holding the form store is modelled as an association list; the
mutable processor object `TRAC` is modelled as the record `TState` that is
threaded through explicit state-passing functions.  Every definition below
mirrors the correspondingly named piece of the source; the only definitions
written from the specification's words instead (for refinement comparison)
are marked as such in their doc comments.
-/

/-- Call mode of a pending invocation: `#(` pushes `active`, `##(` pushes
`neutral` (field `mode` of the Python `Frame`). -/
inductive Mode where
  | active
  | neutral
deriving DecidableEq, Repr

/-- A chunk of literal text or a numbered segment marker placed by `ss`
(the Python union `Part = str | Marker`; named `TPart` here because
Mathlib already has a `Part`). -/
inductive TPart where
  | str (s : List Char)
  | marker (n : Nat)
deriving DecidableEq, Repr

/-- Python `Frame`: per-pending-invocation record. -/
structure Frame where
  begin : Nat
  mode : Mode
  argument_slices : List (Nat × Nat)
  current_argument_start : Nat
deriving DecidableEq, Repr

/-- The form store: insertion-ordered mapping name -> body
(Python `self.forms : dict[str, list[Part]]`). -/
abbrev Forms := List (List Char × List TPart)

/-- Full interpreter state: the persistent form store, the per-record
processor state, and the `ps` output sink (Python prints to stdout; the
spec treats it as a host-provided sink). -/
structure TState where
  forms : Forms
  active : List Char
  neutral : List Char
  scan : Nat
  frames : List Frame
  args : List (List Char)
  sink : List Char
deriving DecidableEq, Repr

/-- Characters skipped at step 3 of the scan loop
(Python `self._skip_chars = {"\t", "\n", "\r", "'"}`; the apostrophe is
written by code point to keep it out of the literal). -/
def skipChars : List Char := ['\t', '\n', '\r', Char.ofNat 39]

/-- `dict` lookup: first (unique) binding of the key. -/
def formsGet (fs : Forms) (n : List Char) : Option (List TPart) :=
  match fs with
  | [] => none
  | (k, v) :: rest => if k = n then some v else formsGet rest n

/-- `dict` assignment `t.forms[name] = v`: replace in place, else append
(keeps insertion order like a Python dict). -/
def formsSet (fs : Forms) (n : List Char) (v : List TPart) : Forms :=
  match fs with
  | [] => [(n, v)]
  | (k, w) :: rest => if k = n then (k, v) :: rest else (k, w) :: formsSet rest n v

/-- `del t.forms[name]`: remove the (unique) binding of the key. -/
def formsDel (fs : Forms) (n : List Char) : Forms :=
  match fs with
  | [] => []
  | (k, w) :: rest => if k = n then rest else (k, w) :: formsDel rest n

/-- Python `TRAC._arg(i)`: `args[i] if i < len(args) else ""`. -/
def argGet (args : List (List Char)) (i : Nat) : List Char :=
  args.getD i []

/-- Leftmost occurrence of `p` in `s`: `some (before, after)` splits `s`
as `before ++ p ++ after` at the first match (Python `s.find(pattern, i)`
expressed as a split). -/
def findSplit (p : List Char) : List Char → Option (List Char × List Char)
  | [] => if p.isPrefixOf ([] : List Char) then some ([], []) else none
  | c :: rest =>
    if p.isPrefixOf (c :: rest) then some ([], (c :: rest).drop p.length)
    else (findSplit p rest).map fun q => (c :: q.1, q.2)

/-- Fuelled form of the inner while-loop of `replace_pattern_in_parts` on
one literal chunk: split `s` at each left-to-right non-overlapping
occurrence of `p`, emitting the literal pieces interleaved with
`Marker num`.  The fuel only serves structural recursion; `splitOnPat`
supplies enough of it (the loop consumes at least one character of `s`
per iteration because the pattern is nonempty at every call site). -/
def splitOnPatF (p : List Char) (num : Nat) : Nat → List Char → List TPart
  | 0, s => [TPart.str s]
  | fuel + 1, s =>
    match findSplit p s with
    | none => [TPart.str s]
    | some q => TPart.str q.1 :: TPart.marker num :: splitOnPatF p num fuel q.2

/-- The inner while-loop of `replace_pattern_in_parts` on one literal
chunk, with adequate fuel. -/
def splitOnPat (p : List Char) (num : Nat) (s : List Char) : List TPart :=
  splitOnPatF p num (s.length + 1) s

/-- The loop body of the trailing merge of `replace_pattern_in_parts`:
append `item` to `merged`, concatenating it onto a literal chunk already
at the end when both are literal. -/
def mergePartsStep (merged : List TPart) (item : TPart) : List TPart :=
  match merged.getLast?, item with
  | some (TPart.str a), TPart.str b => merged.dropLast ++ [TPart.str (a ++ b)]
  | _, _ => merged ++ [item]

/-- The trailing merge loop of `replace_pattern_in_parts`: adjacent literal
chunks are concatenated. -/
def mergeParts (l : List TPart) : List TPart :=
  l.foldl mergePartsStep []

/-- Python `replace_pattern_in_parts(parts, pattern, num)` (inside `ss`):
a null pattern returns `parts` unchanged; otherwise every literal chunk is
split at the occurrences of `pattern`, markers pass through, and adjacent
literal chunks are merged afterwards. -/
def replace_pattern_in_parts (parts : List TPart) (pattern : List Char) (num : Nat) :
    List TPart :=
  if pattern = [] then parts
  else
    mergeParts (parts.flatMap fun part =>
      match part with
      | TPart.marker m => [TPart.marker m]
      | TPart.str s => splitOnPat pattern num s)

/-- The pattern loop of `ss`: `for i, pattern in enumerate(t.args[1:], start=1):
if pattern != "": parts = replace_pattern_in_parts(parts, pattern, i)`. -/
def ssPasses (parts : List TPart) (pats : List (List Char)) : List TPart :=
  (List.enumFrom 1 pats).foldl
    (fun ps q => if q.2 ≠ [] then replace_pattern_in_parts ps q.2 q.1 else ps) parts

/-- Python built-in `ds`: define/replace form `N` with literal body `B`;
empty name is a no-op; result is the null string. -/
def ds (args : List (List Char)) (forms : Forms) : List Char × Forms :=
  let name := argGet args 0
  let body := argGet args 1
  if name = [] then ([], forms)
  else ([], formsSet forms name [TPart.str body])

/-- Python built-in `ss`: create ordinal segment markers in form `N`;
unknown `N` is a no-op; result is the null string. -/
def ss (args : List (List Char)) (forms : Forms) : List Char × Forms :=
  let name := argGet args 0
  match formsGet forms name with
  | none => ([], forms)
  | some parts => ([], formsSet forms name (ssPasses parts (args.drop 1)))

/-- The `replacement.get(part.n, "")` lookup of `cl`: the replacement dict
maps `j` to `args[j]` for `1 ≤ j < len(args)` and everything else to `""`
(`args` here is the full `t.args` of the call, whose index 0 is the name). -/
def markerVal (cargs : List (List Char)) (n : Nat) : List Char :=
  if 1 ≤ n then argGet cargs n else []

/-- The emission loop of `cl`: literal chunks unchanged, markers filled from
the replacement map. -/
def clFill (parts : List TPart) (cargs : List (List Char)) : List Char :=
  (parts.map fun part =>
    match part with
    | TPart.marker n => markerVal cargs n
    | TPart.str s => s).flatten

/-- Python built-in `cl`: return the body of form `N` with markers filled;
unknown `N` yields the null string. -/
def cl (args : List (List Char)) (forms : Forms) : List Char :=
  let name := argGet args 0
  match formsGet forms name with
  | none => []
  | some parts => clFill parts args

/-- Python built-in `eq` (named `eqPrim` here because `eq` collides with
`Eq` machinery): `T if A == B else F`, missing arguments default to `""`. -/
def eqPrim (args : List (List Char)) : List Char :=
  if argGet args 0 = argGet args 1 then argGet args 2 else argGet args 3

/-- Digit-string parser: the fragment of Python `int()` exercised by the
interpreter (a nonempty run of decimal digits). -/
def parseNatDigits (s : List Char) : Option Nat :=
  if s = [] then none
  else if s.all Char.isDigit then
    some (s.foldl (fun a c => 10 * a + (c.toNat - 48)) 0)
  else none

/-- Signed-integer parser: the fragment of Python `int()` exercised by the
interpreter (optional sign, then decimal digits; any other text raises,
modelled as `none`). -/
def parseInt (s : List Char) : Option Int :=
  match s with
  | '-' :: rest => (parseNatDigits rest).map fun n => -(n : Int)
  | '+' :: rest => (parseNatDigits rest).map fun n => (n : Int)
  | _ => (parseNatDigits s).map fun n => (n : Int)

/-- `int(t._arg(i) or "0")`: an empty argument is read as `0`; a parse
failure is an exception, modelled as `none`. -/
def intOfPyArg (s : List Char) : Option Int :=
  parseInt (if s = [] then ['0'] else s)

/-- Most-significant-first decimal digits of a positive number; the fuel
only serves structural recursion (`n` itself is always enough, since the
quotient shrinks at every step). -/
def decDigitsF : Nat → Nat → List Char
  | 0, _ => []
  | fuel + 1, n =>
    if n = 0 then []
    else decDigitsF fuel (n / 10) ++ [Char.ofNat (48 + n % 10)]

/-- Decimal rendering of a natural number (Python `str` on a nonnegative
`int`). -/
def toDecNat (n : Nat) : List Char :=
  if n = 0 then ['0'] else decDigitsF n n

/-- Decimal rendering of an integer (Python `str(int)`). -/
def toDecInt (i : Int) : List Char :=
  if i < 0 then '-' :: toDecNat i.natAbs else toDecNat i.natAbs

/-- Python built-in `ml`: `str(int(a or "0") * int(b or "0"))`; `none`
models the `int()` exception. -/
def ml (args : List (List Char)) : Option (List Char) := do
  let a ← intOfPyArg (argGet args 0)
  let b ← intOfPyArg (argGet args 1)
  pure (toDecInt (a * b))

/-- Python built-in `ad`. -/
def ad (args : List (List Char)) : Option (List Char) := do
  let a ← intOfPyArg (argGet args 0)
  let b ← intOfPyArg (argGet args 1)
  pure (toDecInt (a + b))

/-- Python built-in `su`. -/
def su (args : List (List Char)) : Option (List Char) := do
  let a ← intOfPyArg (argGet args 0)
  let b ← intOfPyArg (argGet args 1)
  pure (toDecInt (a - b))

/-- Python built-in `ln`: all form names in insertion order joined by `S`. -/
def ln (args : List (List Char)) (forms : Forms) : List Char :=
  List.intercalate (argGet args 0) (forms.map Prod.fst)

/-- Python built-in `dd`: delete each named form if present. -/
def dd (args : List (List Char)) (forms : Forms) : Forms :=
  args.foldl (fun f n => if (formsGet f n).isSome then formsDel f n else f) forms

/-- The dispatch in `_end_function_and_evaluate`: look the primitive up in
the registry built by `_register_core_builtins` (same registration order),
run it with the `try/except` that maps a handler exception to `""`, and
fall back to `""` for an unknown name.  Returns (value, forms, sink). -/
def evalPrim (name : List Char) (args : List (List Char)) (forms : Forms)
    (sink : List Char) : List Char × Forms × List Char :=
  if name = "ds".toList then ((ds args forms).1, (ds args forms).2, sink)
  else if name = "ss".toList then ((ss args forms).1, (ss args forms).2, sink)
  else if name = "cl".toList then (cl args forms, forms, sink)
  else if name = "eq".toList then (eqPrim args, forms, sink)
  else if name = "ml".toList then ((ml args).getD [], forms, sink)
  else if name = "su".toList then ((su args).getD [], forms, sink)
  else if name = "ad".toList then ((ad args).getD [], forms, sink)
  else if name = "ln".toList then (ln args forms, forms, sink)
  else if name = "dd".toList then ([], dd args forms, sink)
  else if name = "ps".toList then ([], forms, sink ++ argGet args 0)
  else ([], forms, sink)

/-- Python `TRAC._clear_processor`: clears the transient processor state,
leaving the form store (and sink) untouched. -/
def clearProcessor (st : TState) : TState :=
  { st with neutral := [], active := [], scan := 0, frames := [], args := [] }

/-- Python `TRAC._delete_active_char`: delete `active[scan]` when in
bounds; `scan` is unchanged. -/
def deleteActiveChar (st : TState) : TState :=
  if st.scan < st.active.length then { st with active := st.active.eraseIdx st.scan }
  else st

/-- Python `TRAC._move_active_char_to_neutral`: append `active[scan]` to
neutral, then delete it from active (`scan` stays). -/
def moveActiveCharToNeutral (st : TState) : TState :=
  { st with neutral := st.neutral ++ (st.active.drop st.scan).take 1,
            active := st.active.eraseIdx st.scan }

/-- Python `TRAC._peek(*expect)`: does `expect` match right after the scan
position (with the explicit bounds check of the source)? -/
def peek (st : TState) (expect : List Char) : Bool :=
  if st.active.length ≤ st.scan + expect.length then false
  else expect.isPrefixOf (st.active.drop (st.scan + 1))

/-- Python `TRAC._begin_function(mode)`: push a frame whose `begin` and
`current_argument_start` are the current neutral length. -/
def beginFunction (mode : Mode) (st : TState) : TState :=
  { st with frames := ⟨st.neutral.length, mode, [], st.neutral.length⟩ :: st.frames }

/-- Python `TRAC._mark_argument_boundary`: close the innermost frame's
current slice at the present neutral length (no frame: silently ignore). -/
def markArgumentBoundary (st : TState) : TState :=
  match st.frames with
  | [] => st
  | f :: rest =>
      { st with frames := ⟨f.begin, f.mode,
          f.argument_slices ++ [(f.current_argument_start, st.neutral.length)],
          st.neutral.length⟩ :: rest }

/-- The while-loop of `TRAC._consume_balanced_parentheses_into_neutral`
after the opening parenthesis has been deleted: walk the remaining active
characters tracking depth; `some (copied, rest)` means the matching `)` was
found, the characters before it (interior parens included) are `copied`,
and `rest` follows the deleted matching `)`; `none` means the parenthesis
is unbalanced. -/
def consumeQuote (depth : Nat) : List Char → Option (List Char × List Char)
  | [] => none
  | c :: rest =>
    if c = '(' then (consumeQuote (depth + 1) rest).map fun q => (c :: q.1, q.2)
    else if c = ')' then
      if depth = 1 then some ([], rest)
      else (consumeQuote (depth - 1) rest).map fun q => (c :: q.1, q.2)
    else (consumeQuote depth rest).map fun q => (c :: q.1, q.2)

/-- Lines 173-180 of the source: close the final argument slice
`[current_argument_start, len(neutral))` and extract each argument as the
concatenation `"".join(neutral[a:b])` of its slice. -/
def frameCallArgs (frame : Frame) (neutral : List Char) : List (List Char) :=
  (frame.argument_slices ++ [(frame.current_argument_start, neutral.length)]).map
    fun p => (neutral.drop p.1).take (p.2 - p.1)

/-- Lines 186-195 of the source: the first extracted argument is the
primitive name (empty if there are none), the remainder populate `t.args`,
and the dispatch/`try` yields the value `V` (with the new forms and sink). -/
def frameResult (frame : Frame) (st : TState) : List Char × Forms × List Char :=
  evalPrim ((frameCallArgs frame st.neutral).headD [])
    ((frameCallArgs frame st.neutral).drop 1) st.forms st.sink

/-- Python `TRAC._end_function_and_evaluate`: with no open frame, abort
(clear the processor); otherwise pop the innermost frame, close its final
argument slice, extract the arguments from the neutral buffer, excise the
body region, evaluate the primitive, and deliver the result by mode. -/
def endFunctionAndEvaluate (st : TState) : TState :=
  match st.frames with
  | [] => clearProcessor st
  | frame :: rest =>
    let r := frameResult frame st
    let neutral1 := st.neutral.take frame.begin ++ st.neutral.drop st.neutral.length
    match frame.mode with
    | Mode.neutral =>
        { st with frames := rest, neutral := neutral1 ++ r.1,
                  forms := r.2.1, sink := r.2.2, args := [] }
    | Mode.active =>
        { st with frames := rest, neutral := neutral1,
                  active := r.1 ++ st.active.drop st.scan, scan := 0,
                  forms := r.2.1, sink := r.2.2, args := [] }

/-- Outcome of one iteration of the `while True` loop of `TRAC.execute`:
either the loop breaks (`halt`, carrying the state at the break) or it
continues with the next state. -/
inductive StepRes where
  | halt (st : TState)
  | cont (st : TState)
deriving DecidableEq, Repr

/-- One iteration of the scan loop of `TRAC.execute` (steps 2-10 of the
source), at the source's own granularity: the balanced-parenthesis
consumption is the single iteration that encountered the `(`. -/
def step (st : TState) : StepRes :=
  match st.active[st.scan]? with
  | none => StepRes.halt st
  | some ch =>
    if skipChars.contains ch then StepRes.cont (deleteActiveChar st)
    else if ch = '(' then
      match consumeQuote 1 (st.active.drop (st.scan + 1)) with
      | some q => StepRes.cont { st with active := st.active.take st.scan ++ q.2,
                                         neutral := st.neutral ++ q.1 }
      | none => StepRes.halt (clearProcessor st)
    else if ch = ',' then StepRes.cont (markArgumentBoundary (deleteActiveChar st))
    else if ch = '#' then
      if peek st ['('] then
        StepRes.cont (beginFunction Mode.active (deleteActiveChar (deleteActiveChar st)))
      else if peek st ['#', '('] then
        StepRes.cont (beginFunction Mode.neutral
          (deleteActiveChar (deleteActiveChar (deleteActiveChar st))))
      else StepRes.cont (moveActiveCharToNeutral st)
    else if ch = ')' then
      StepRes.cont (endFunctionAndEvaluate (deleteActiveChar st))
    else StepRes.cont (moveActiveCharToNeutral st)

/-- Fuelled iteration of the scan loop to its break; `none` when the fuel
runs out before the loop ends. -/
def runFuel : Nat → TState → Option TState
  | 0, _ => none
  | n + 1, st =>
    match step st with
    | StepRes.halt s => some s
    | StepRes.cont s => runFuel n s

/-- Exactly `k` continuing iterations of the scan loop; `none` if the loop
breaks earlier.  Used to express intermediate reachable states. -/
def iterateCont : Nat → TState → Option TState
  | 0, st => some st
  | n + 1, st =>
    match step st with
    | StepRes.halt _ => none
    | StepRes.cont s => iterateCont n s

/-- Python `TRAC._reset_processor_with(program)` on an interpreter whose
persistent parts are `forms` and `sink`. -/
def initState (forms : Forms) (sink : List Char) (program : List Char) : TState :=
  ⟨forms, program, [], 0, [], [], sink⟩

/-- Python `TRAC.execute(s)` with explicit fuel: the returned output is
`"".join(self.neutral)` at the break; the final `TState` keeps the
buffers exactly as the source leaves them. -/
def executeFuel (fuel : Nat) (forms : Forms) (sink : List Char) (program : List Char) :
    Option (List Char × TState) :=
  (runFuel fuel (initState forms sink program)).map fun st => (st.neutral, st)

/-- A character the scanner treats as plain text: not an idle character,
not a parenthesis, not a comma, not `#`.  Such characters move from active
to neutral one per iteration with no other effect. -/
def isOrdinary (c : Char) : Bool :=
  !(skipChars.contains c) && !(c == '(') && !(c == ',') && !(c == '#') && !(c == ')')

/-- Left-to-right non-overlapping match positions of `p` in `s`, starting
at offset `base`; fuel as in `splitOnPatF`. -/
def occListF (p : List Char) : Nat → List Char → Nat → List Nat
  | 0, _, _ => []
  | fuel + 1, s, base =>
    match findSplit p s with
    | none => []
    | some q => (base + q.1.length) ::
        occListF p fuel q.2 (base + q.1.length + p.length)

/-- Match positions of a pattern in a string (empty pattern: none). -/
def occurrencesOf (p s : List Char) : List Nat :=
  if p = [] then [] else occListF p (s.length + 1) s 0

/-- Do two patterns' match regions avoid each other?  `x`/`y` carry the
pattern length and its match positions. -/
def regionsDisjoint (x y : Nat × List Nat) : Bool :=
  x.2.all fun a => y.2.all fun b => decide (a + x.1 ≤ b) || decide (b + y.1 ≤ a)

/-- All listed match-region sets are pairwise disjoint. -/
def pairwiseDisjoint : List (Nat × List Nat) → Bool
  | [] => true
  | x :: rest => rest.all (fun y => regionsDisjoint x y) && pairwiseDisjoint rest

/-- Hypothesis of the segment-substitution property: no pattern occurs
inside (or across) another pattern's match region of `B`. -/
def patternsIndependent (B : List Char) (pats : List (List Char)) : Bool :=
  pairwiseDisjoint (pats.map fun p => (p.length, occurrencesOf p B))

/-- Modelled from the spec's words (refinement comparator for the
ss-then-cl property): a piece of the body during substitution — either
still-unsubstituted literal text or text already substituted in for a
pattern occurrence, which is protected from further matching. -/
inductive Seg where
  | raw (s : List Char)
  | filled (s : List Char)
deriving DecidableEq, Repr

/-- Modelled from the spec's words: split one unsubstituted piece at each
left-to-right non-overlapping occurrence of `p`, putting the replacement
text `a` in place of every occurrence (fuelled as `splitOnPatF`). -/
def segSplitF (p a : List Char) : Nat → List Char → List Seg
  | 0, s => [Seg.raw s]
  | fuel + 1, s =>
    match findSplit p s with
    | none => [Seg.raw s]
    | some q => Seg.raw q.1 :: Seg.filled a :: segSplitF p a fuel q.2

/-- Modelled from the spec's words: `segSplitF` with adequate fuel. -/
def segSplit (p a s : List Char) : List Seg :=
  segSplitF p a (s.length + 1) s

/-- Modelled from the spec's words: merge adjacent unsubstituted literal
pieces (the spec's "adjacent literal chunks are merged"). -/
def mergeSegsStep (merged : List Seg) (item : Seg) : List Seg :=
  match merged.getLast?, item with
  | some (Seg.raw a), Seg.raw b => merged.dropLast ++ [Seg.raw (a ++ b)]
  | _, _ => merged ++ [item]

/-- Modelled from the spec's words: one whole replacement pass, replacing
every occurrence of `p` in the unsubstituted pieces by the protected text
`a`; an empty pattern is skipped. -/
def segReplace (segs : List Seg) (p a : List Char) : List Seg :=
  if p = [] then segs
  else
    (segs.flatMap fun seg =>
      match seg with
      | Seg.filled s => [Seg.filled s]
      | Seg.raw s => segSplit p a s).foldl mergeSegsStep []

/-- Modelled from the spec's words: run the passes for `(P1, A1), (P2, A2),
…` in argument order; an empty `Pi` is skipped but still consumes its
ordinal position (its `Ai` is simply never used). -/
def specSubstSegs (pas : List (List Char × List Char)) (segs : List Seg) : List Seg :=
  pas.foldl (fun acc q => segReplace acc q.1 q.2) segs

/-- Concatenate the pieces back into the result text. -/
def flattenSegs (l : List Seg) : List Char :=
  (l.map fun seg =>
    match seg with
    | Seg.raw s => s
    | Seg.filled s => s).flatten

/-- Modelled from the spec's words: "B with every occurrence of Pi replaced
by Ai (left-to-right, non-overlapping)", substituted text not participating
in later matches, empty patterns skipped without shifting the numbering. -/
def specSubst (B : List Char) (pas : List (List Char × List Char)) : List Char :=
  flattenSegs (specSubstSegs pas [Seg.raw B])

/-- Interpretation of a part as a substitution piece, given the value
every marker number receives at call time. -/
def toSeg (av : Nat → List Char) : TPart → Seg
  | TPart.str s => Seg.raw s
  | TPart.marker n => Seg.filled (av n)

def factorialDs : List Char :=
  "#(ds,Factorial,(#(eq,X,1,1,(#(ml,X,#(cl,Factorial,#(su,X,1)))))))".toList

def factorialSs : List Char := "#(ss,Factorial,X)".toList

def factorialCl50 : List Char := "#(cl,Factorial,50)".toList

/-- The form store after running the two definition records of scenario 1
(the demo's `Factorial` form, then its `ss` over `X`). -/
def factorialStore : Forms :=
  match (runFuel 200 (initState [] [] factorialDs)).bind
      (fun st1 => runFuel 200 (initState st1.forms [] factorialSs)) with
  | none => []
  | some st2 => st2.forms

/-- The output of `#(cl,Factorial,50)` on that store. -/
def factorial50Output : Option (List Char) :=
  (runFuel 60000 (initState factorialStore [] factorialCl50)).map TState.neutral

/-- The frame-stack ordering stated by the spec: strictly increasing
`begin` towards the innermost (head) frame. -/
def framesStrictlyOrdered (st : TState) : Prop :=
  List.Pairwise (fun f g => g.begin < f.begin) st.frames

/-- The frame-stack ordering the code actually maintains: weakly
increasing `begin` towards the innermost (head) frame. -/
def framesOrdered (st : TState) : Prop :=
  List.Pairwise (fun f g => g.begin ≤ f.begin) st.frames

/-- Every frame's `begin` lies within the neutral buffer. -/
def framesBounded (st : TState) : Prop :=
  ∀ f ∈ st.frames, f.begin ≤ st.neutral.length

/-! ## Helper lemmas -/

theorem findSplit_length_lt (p : List Char) (hp : p ≠ []) :
    ∀ (s : List Char) (q : List Char × List Char),
      findSplit p s = some q → q.2.length < s.length := by
  have hlen : 1 ≤ p.length := by
    cases p with
    | nil => exact absurd rfl hp
    | cons a as => simp
  intro s
  induction s with
  | nil =>
      intro q h
      have hfalse : p.isPrefixOf ([] : List Char) = false := by
        cases p with
        | nil => exact absurd rfl hp
        | cons a as => rfl
      simp [findSplit, hfalse] at h
  | cons c rest ih =>
      intro q h
      simp only [findSplit] at h
      by_cases hpre : p.isPrefixOf (c :: rest)
      · rw [if_pos hpre] at h
        have hq : q = ([], (c :: rest).drop p.length) := (Option.some.inj h).symm
        subst hq
        simp only [List.length_drop, List.length_cons]
        omega
      · rw [if_neg hpre, Option.map_eq_some'] at h
        obtain ⟨q', hq', hfq⟩ := h
        have := ih q' hq'
        subst hfq
        simp only [List.length_cons]
        omega

theorem splitOnPatF_fuel_irrel (p : List Char) (hp : p ≠ []) (num : Nat) :
    ∀ (f g : Nat) (s : List Char), s.length < f → s.length < g →
      splitOnPatF p num f s = splitOnPatF p num g s := by
  intro f
  induction f with
  | zero => intro g s hf; omega
  | succ f ih =>
      intro g s hf hg
      cases g with
      | zero => omega
      | succ g =>
          simp only [splitOnPatF]
          cases hq : findSplit p s with
          | none => rfl
          | some q =>
              have hlt := findSplit_length_lt p hp s q hq
              exact congrArg (fun t => TPart.str q.1 :: TPart.marker num :: t)
                (ih g q.2 (by omega) (by omega))

/-- Unfolding equation for `splitOnPat`, matching the source loop: emit the
prefix before the first occurrence and a marker, then continue after it. -/
theorem splitOnPat_eq (p : List Char) (hp : p ≠ []) (num : Nat) (s : List Char) :
    splitOnPat p num s =
      match findSplit p s with
      | none => [TPart.str s]
      | some q => TPart.str q.1 :: TPart.marker num :: splitOnPat p num q.2 := by
  show splitOnPatF p num (s.length + 1) s = _
  simp only [splitOnPatF]
  cases hq : findSplit p s with
  | none => rfl
  | some q =>
      have hlt := findSplit_length_lt p hp s q hq
      exact congrArg (fun t => TPart.str q.1 :: TPart.marker num :: t)
        (splitOnPatF_fuel_irrel p hp num s.length (q.2.length + 1) q.2 (by omega) (by omega))


theorem formsGet_formsSet (fs : Forms) (n : List Char) (v : List TPart) :
    formsGet (formsSet fs n v) n = some v := by
  induction fs with
  | nil => simp [formsSet, formsGet]
  | cons kv rest ih =>
      obtain ⟨k, w⟩ := kv
      by_cases hk : k = n
      · simp [formsSet, formsGet, hk]
      · simp [formsSet, formsGet, hk, ih]

/-! ## Claim theorems -/

/-- C1: when `)` closes an invocation frame, the processor extracts the
call's arguments from the neutral buffer slices, excises the call's body
region from neutral, evaluates the primitive, and delivers the result `V`
by the frame's mode: for an active frame `V` is spliced at the front of
the remaining active input (`active := V ++ active[scan..]`, `scan := 0`)
so `V` is re-scanned; for a neutral frame `V` is appended to neutral
verbatim and active and scan are untouched, so `V` is not re-scanned. -/
theorem C1_delivery_by_mode (st : TState) (frame : Frame) (rest : List Frame)
    (h : st.frames = frame :: rest) :
    frameResult frame st =
      evalPrim ((frameCallArgs frame st.neutral).headD [])
        ((frameCallArgs frame st.neutral).drop 1) st.forms st.sink ∧
    (frame.mode = Mode.active →
      endFunctionAndEvaluate st =
        { forms := (frameResult frame st).2.1,
          active := (frameResult frame st).1 ++ st.active.drop st.scan,
          neutral := st.neutral.take frame.begin,
          scan := 0, frames := rest, args := [],
          sink := (frameResult frame st).2.2 }) ∧
    (frame.mode = Mode.neutral →
      endFunctionAndEvaluate st =
        { forms := (frameResult frame st).2.1,
          active := st.active,
          neutral := st.neutral.take frame.begin ++ (frameResult frame st).1,
          scan := st.scan, frames := rest, args := [],
          sink := (frameResult frame st).2.2 }) := by
  refine ⟨rfl, ?_, ?_⟩ <;> intro hm <;>
    simp [endFunctionAndEvaluate, h, hm, List.drop_length]

/-- Witness for C1 at a concrete state: closing an active-mode frame over
neutral `"ml,6,7"` with slices for `ml`, `6`, `7` splices `42` into the
active input. -/
theorem C1_delivery_by_mode_witness :
    endFunctionAndEvaluate
        ⟨[], ['x'], "ml,6,7".toList, 0,
         [⟨0, Mode.active, [(0, 2), (3, 4)], 5⟩], [], []⟩ =
      ⟨[], ['4', '2', 'x'], [], 0, [], [], []⟩ := by
  have h := (C1_delivery_by_mode
    ⟨[], ['x'], "ml,6,7".toList, 0,
     [⟨0, Mode.active, [(0, 2), (3, 4)], 5⟩], [], []⟩
    ⟨0, Mode.active, [(0, 2), (3, 4)], 5⟩ [] rfl).2.1 rfl
  rw [h]
  decide

/-- C3: `#(ds,N,B)` followed, with no intervening `ss` on `N`, by
`#(cl,N)` returns exactly `B`: defining a non-empty name `N` with body `B`
and immediately calling it yields the body unchanged. -/
theorem C3_ds_cl_roundtrip (N B : List Char) (forms : Forms) (hN : N ≠ []) :
    (ds [N, B] forms).1 = [] ∧
    cl [N] (ds [N, B] forms).2 = B := by
  constructor
  · simp [ds, argGet, hN]
  · simp [ds, argGet, hN, cl, formsGet_formsSet, clFill]

/-- Witness for C3: `ds` then `cl` on name `AA` and body `Cat`. -/
theorem C3_ds_cl_roundtrip_witness :
    cl ["AA".toList] (ds ["AA".toList, "Cat".toList] []).2 = "Cat".toList :=
  (C3_ds_cl_roundtrip "AA".toList "Cat".toList [] (by decide)).2

/-- C10: only `ds`, `ss` and `dd` ever modify the form store — an
invocation of `cl`, `eq`, `ml`, `ad`, `su`, `ln` or `ps` returns a form
store identical to the one it was given. -/
theorem C10_only_ds_ss_dd_write_forms :
    ∀ (args : List (List Char)) (forms : Forms) (sink : List Char),
      (evalPrim "cl".toList args forms sink).2.1 = forms ∧
      (evalPrim "eq".toList args forms sink).2.1 = forms ∧
      (evalPrim "ml".toList args forms sink).2.1 = forms ∧
      (evalPrim "ad".toList args forms sink).2.1 = forms ∧
      (evalPrim "su".toList args forms sink).2.1 = forms ∧
      (evalPrim "ln".toList args forms sink).2.1 = forms ∧
      (evalPrim "ps".toList args forms sink).2.1 = forms := by
  intro args forms sink
  refine ⟨rfl, rfl, rfl, rfl, rfl, rfl, rfl⟩

@[simp] theorem deleteActiveChar_forms (st : TState) :
    (deleteActiveChar st).forms = st.forms := by
  unfold deleteActiveChar; split <;> rfl

@[simp] theorem deleteActiveChar_neutral (st : TState) :
    (deleteActiveChar st).neutral = st.neutral := by
  unfold deleteActiveChar; split <;> rfl

@[simp] theorem deleteActiveChar_scan (st : TState) :
    (deleteActiveChar st).scan = st.scan := by
  unfold deleteActiveChar; split <;> rfl

@[simp] theorem deleteActiveChar_frames (st : TState) :
    (deleteActiveChar st).frames = st.frames := by
  unfold deleteActiveChar; split <;> rfl

@[simp] theorem deleteActiveChar_args (st : TState) :
    (deleteActiveChar st).args = st.args := by
  unfold deleteActiveChar; split <;> rfl

@[simp] theorem deleteActiveChar_sink (st : TState) :
    (deleteActiveChar st).sink = st.sink := by
  unfold deleteActiveChar; split <;> rfl

theorem clearProcessor_deleteActiveChar (st : TState) :
    clearProcessor (deleteActiveChar st) = clearProcessor st := by
  unfold deleteActiveChar; split <;> rfl

theorem dd_absent : ∀ (args : List (List Char)) (forms : Forms),
    (∀ n ∈ args, formsGet forms n = none) → dd args forms = forms := by
  intro args
  induction args with
  | nil => intro forms _; rfl
  | cons a as ih =>
      intro forms h
      have ha := h a (by simp)
      simp only [dd, List.foldl_cons, ha, Option.isSome_none, Bool.false_eq_true,
        if_false]
      exact ih forms fun n hn => h n (List.mem_cons_of_mem _ hn)

/-- C4: every local fault of a call yields the empty string as that call's
result, and scanning continues: an unknown primitive name gives `("", …)`
with store and sink untouched; `cl` and `ss` on an unknown form give the
empty result and leave the store unchanged; `dd` naming only unknown forms
likewise; `ds` with an empty name is a no-op with empty result; a missing
positional argument reads as the empty string; a parse failure in the
integer arguments of `ml`/`ad`/`su` (the swallowed `int()` exception) gives
the empty result; and closing a frame always pops exactly that frame and
clears `args` — the processor is never cleared by a fault inside a call,
so `execute` keeps scanning and still returns a string. -/
theorem C4_local_faults_silent_empty :
    (∀ (name : List Char) (args : List (List Char)) (forms : Forms) (sink : List Char),
      name ∉ ["ds".toList, "ss".toList, "cl".toList, "eq".toList, "ml".toList,
              "su".toList, "ad".toList, "ln".toList, "dd".toList, "ps".toList] →
      evalPrim name args forms sink = ([], forms, sink)) ∧
    (∀ (args : List (List Char)) (forms : Forms) (sink : List Char),
      formsGet forms (argGet args 0) = none →
      evalPrim "cl".toList args forms sink = ([], forms, sink) ∧
      evalPrim "ss".toList args forms sink = ([], forms, sink)) ∧
    (∀ (args : List (List Char)) (forms : Forms) (sink : List Char),
      (∀ n ∈ args, formsGet forms n = none) →
      evalPrim "dd".toList args forms sink = ([], forms, sink)) ∧
    (∀ (args : List (List Char)) (forms : Forms) (sink : List Char),
      argGet args 0 = [] →
      evalPrim "ds".toList args forms sink = ([], forms, sink)) ∧
    (∀ (args : List (List Char)) (i : Nat), args.length ≤ i → argGet args i = []) ∧
    (∀ (args : List (List Char)) (forms : Forms) (sink : List Char),
      intOfPyArg (argGet args 0) = none ∨ intOfPyArg (argGet args 1) = none →
      evalPrim "ml".toList args forms sink = ([], forms, sink) ∧
      evalPrim "ad".toList args forms sink = ([], forms, sink) ∧
      evalPrim "su".toList args forms sink = ([], forms, sink)) ∧
    (∀ (st : TState) (frame : Frame) (rest : List Frame),
      st.frames = frame :: rest →
      (endFunctionAndEvaluate st).frames = rest ∧
      (endFunctionAndEvaluate st).args = []) := by
  refine ⟨?_, ?_, ?_, ?_, ?_, ?_, ?_⟩
  · intro name args forms sink h
    simp only [List.mem_cons, List.not_mem_nil, or_false, not_or] at h
    obtain ⟨h1, h2, h3, h4, h5, h6, h7, h8, h9, h10⟩ := h
    simp only [evalPrim]
    rw [if_neg h1, if_neg h2, if_neg h3, if_neg h4, if_neg h5, if_neg h6,
      if_neg h7, if_neg h8, if_neg h9, if_neg h10]
  · intro args forms sink h
    constructor
    · show (cl args forms, forms, sink) = ([], forms, sink)
      simp [cl, h]
    · show ((ss args forms).1, (ss args forms).2, sink) = ([], forms, sink)
      simp [ss, h]
  · intro args forms sink h
    show ([], dd args forms, sink) = ([], forms, sink)
    rw [dd_absent args forms h]
  · intro args forms sink h
    show ((ds args forms).1, (ds args forms).2, sink) = ([], forms, sink)
    simp [ds, h]
  · intro args i h
    simp [argGet, List.getD, List.getElem?_eq_none h]
  · intro args forms sink h
    have hml : ml args = none := by
      rcases h with h | h
      · simp [ml, h]
      · cases h0 : intOfPyArg (argGet args 0) <;> simp [ml, h0, h]
    have had : ad args = none := by
      rcases h with h | h
      · simp [ad, h]
      · cases h0 : intOfPyArg (argGet args 0) <;> simp [ad, h0, h]
    have hsu : su args = none := by
      rcases h with h | h
      · simp [su, h]
      · cases h0 : intOfPyArg (argGet args 0) <;> simp [su, h0, h]
    refine ⟨?_, ?_, ?_⟩
    · show ((ml args).getD [], forms, sink) = ([], forms, sink)
      rw [hml]; rfl
    · show ((ad args).getD [], forms, sink) = ([], forms, sink)
      rw [had]; rfl
    · show ((su args).getD [], forms, sink) = ([], forms, sink)
      rw [hsu]; rfl
  · intro st frame rest h
    cases hm : frame.mode <;> simp [endFunctionAndEvaluate, h, hm]

/-- Witness for C4: a concrete unknown primitive, an unknown form for `cl`,
and a non-numeric `ml` argument all evaluate to the empty result. -/
theorem C4_local_faults_silent_empty_witness :
    evalPrim "zz".toList [] [] [] = ([], [], []) ∧
    evalPrim "cl".toList ["q".toList] [] [] = ([], [], []) ∧
    evalPrim "ml".toList ["x".toList] [] [] = ([], [], []) :=
  ⟨C4_local_faults_silent_empty.1 "zz".toList [] [] [] (by decide),
   (C4_local_faults_silent_empty.2.1 ["q".toList] [] [] (by decide)).1,
   (C4_local_faults_silent_empty.2.2.2.2.2.1 ["x".toList] [] []
     (Or.inl (by decide))).1⟩

/-- C5: on a record abort — a stray `)` scanned with no open frame, or a
`(` with no matching `)` in the remaining active text — the processor
state is cleared (active, neutral, frames, args all empty, scan 0), so no
further output can be produced and the run ends with the empty output,
while the form store and the sink are left exactly as they were at the
abort. -/
theorem C5_abort_clears_processor_keeps_store :
    (∀ st : TState, st.active[st.scan]? = some ')' → st.frames = [] →
      step st = StepRes.cont (clearProcessor st) ∧
      (∀ f : Nat, runFuel (f + 2) st = some (clearProcessor st))) ∧
    (∀ st : TState, st.active[st.scan]? = some '(' →
      consumeQuote 1 (st.active.drop (st.scan + 1)) = none →
      step st = StepRes.halt (clearProcessor st) ∧
      (∀ f : Nat, runFuel (f + 1) st = some (clearProcessor st))) ∧
    (∀ st : TState,
      (clearProcessor st).forms = st.forms ∧ (clearProcessor st).sink = st.sink ∧
      (clearProcessor st).active = [] ∧ (clearProcessor st).neutral = [] ∧
      (clearProcessor st).frames = [] ∧ (clearProcessor st).args = [] ∧
      (clearProcessor st).scan = 0) := by
  have hclear : ∀ st : TState, step (clearProcessor st) = StepRes.halt (clearProcessor st) :=
    fun st => rfl
  refine ⟨?_, ?_, ?_⟩
  · intro st h1 h2
    have hstep : step st = StepRes.cont (clearProcessor st) := by
      have hfr : (deleteActiveChar st).frames = [] := by simp [h2]
      have hend : endFunctionAndEvaluate (deleteActiveChar st) = clearProcessor st := by
        have h0 : endFunctionAndEvaluate (deleteActiveChar st)
            = clearProcessor (deleteActiveChar st) := by
          unfold endFunctionAndEvaluate
          rw [hfr]
        rw [h0, clearProcessor_deleteActiveChar]
      simp only [step, h1]
      simp [hend]
      intro hmem
      exact absurd hmem (by decide)
    refine ⟨hstep, fun f => ?_⟩
    rw [show f + 2 = (f + 1) + 1 from rfl]
    simp only [runFuel, hstep]
    cases f with
    | zero => simp [runFuel, hclear st]
    | succ f => simp [runFuel, hclear st]
  · intro st h1 h2
    have hstep : step st = StepRes.halt (clearProcessor st) := by
      simp only [step, h1]
      simp [h2]
      decide
    refine ⟨hstep, fun f => ?_⟩
    cases f with
    | zero => simp [runFuel, hstep]
    | succ f => simp [runFuel, hstep]
  · intro st
    exact ⟨rfl, rfl, rfl, rfl, rfl, rfl, rfl⟩

/-- Witness for C5: a stray `)` at the start of a record and an unbalanced
`(` both abort concrete runs, leaving cleared processor state. -/
theorem C5_abort_clears_processor_keeps_store_witness :
    runFuel 5 (initState [("A".toList, [TPart.str "x".toList])] [] ")y".toList)
      = some (clearProcessor
          (initState [("A".toList, [TPart.str "x".toList])] [] ")y".toList)) ∧
    runFuel 4 (initState [("A".toList, [TPart.str "x".toList])] [] "(a".toList)
      = some (clearProcessor
          (initState [("A".toList, [TPart.str "x".toList])] [] "(a".toList)) :=
  ⟨(C5_abort_clears_processor_keeps_store.1
      (initState [("A".toList, [TPart.str "x".toList])] [] ")y".toList)
      (by decide) rfl).2 3,
   (C5_abort_clears_processor_keeps_store.2.1
      (initState [("A".toList, [TPart.str "x".toList])] [] "(a".toList)
      (by decide) (by decide)).2 3⟩

@[simp] theorem moveActiveCharToNeutral_scan (st : TState) :
    (moveActiveCharToNeutral st).scan = st.scan := rfl

@[simp] theorem moveActiveCharToNeutral_args (st : TState) :
    (moveActiveCharToNeutral st).args = st.args := rfl

@[simp] theorem moveActiveCharToNeutral_frames (st : TState) :
    (moveActiveCharToNeutral st).frames = st.frames := rfl

@[simp] theorem moveActiveCharToNeutral_forms (st : TState) :
    (moveActiveCharToNeutral st).forms = st.forms := rfl

@[simp] theorem markArgumentBoundary_scan (st : TState) :
    (markArgumentBoundary st).scan = st.scan := by
  unfold markArgumentBoundary; split <;> rfl

@[simp] theorem markArgumentBoundary_args (st : TState) :
    (markArgumentBoundary st).args = st.args := by
  unfold markArgumentBoundary; split <;> rfl

@[simp] theorem markArgumentBoundary_neutral (st : TState) :
    (markArgumentBoundary st).neutral = st.neutral := by
  unfold markArgumentBoundary; split <;> rfl

@[simp] theorem beginFunction_scan (m : Mode) (st : TState) :
    (beginFunction m st).scan = st.scan := rfl

@[simp] theorem beginFunction_args (m : Mode) (st : TState) :
    (beginFunction m st).args = st.args := rfl

@[simp] theorem beginFunction_neutral (m : Mode) (st : TState) :
    (beginFunction m st).neutral = st.neutral := rfl

theorem endFunctionAndEvaluate_scan_args (st : TState) (h0 : st.scan = 0) :
    (endFunctionAndEvaluate st).scan = 0 ∧ (endFunctionAndEvaluate st).args = [] := by
  unfold endFunctionAndEvaluate
  cases hfr : st.frames with
  | nil => exact ⟨rfl, rfl⟩
  | cons frame rest => cases hm : frame.mode <;> simp [hm, h0]

theorem step_cases (st : TState) (h0 : st.scan = 0) (ha : st.args = []) :
    (∀ s, step st = StepRes.cont s → s.scan = 0 ∧ s.args = []) ∧
    (∀ s, step st = StepRes.halt s → s.active = [] ∧ s.args = []) := by
  unfold step
  cases hch : st.active[st.scan]? with
  | none =>
      dsimp only
      constructor
      · intro s h
        cases h
      · intro s h
        cases h
        have hlen : st.active.length ≤ st.scan := by
          rwa [List.getElem?_eq_none_iff] at hch
        rw [h0] at hlen
        exact ⟨List.eq_nil_of_length_eq_zero (by omega), ha⟩
  | some ch =>
      dsimp only
      by_cases hskip : skipChars.contains ch
      · rw [if_pos hskip]
        constructor
        · intro s h
          cases h
          simp [h0, ha]
        · intro s h
          cases h
      · rw [if_neg hskip]
        by_cases hop : ch = '('
        · rw [if_pos hop]
          cases hq : consumeQuote 1 (st.active.drop (st.scan + 1)) with
          | some q =>
              constructor
              · intro s h
                cases h
                exact ⟨h0, ha⟩
              · intro s h
                cases h
          | none =>
              constructor
              · intro s h
                cases h
              · intro s h
                cases h
                exact ⟨rfl, rfl⟩
        · rw [if_neg hop]
          by_cases hcm : ch = ','
          · rw [if_pos hcm]
            constructor
            · intro s h
              cases h
              simp [h0, ha]
            · intro s h
              cases h
          · rw [if_neg hcm]
            by_cases hhash : ch = '#'
            · rw [if_pos hhash]
              by_cases hp1 : peek st ['('] = true
              · rw [if_pos hp1]
                constructor
                · intro s h
                  cases h
                  simp [h0, ha]
                · intro s h
                  cases h
              · rw [if_neg hp1]
                by_cases hp2 : peek st ['#', '('] = true
                · rw [if_pos hp2]
                  constructor
                  · intro s h
                    cases h
                    simp [h0, ha]
                  · intro s h
                    cases h
                · rw [if_neg hp2]
                  constructor
                  · intro s h
                    cases h
                    simp [h0, ha]
                  · intro s h
                    cases h
            · rw [if_neg hhash]
              by_cases hcl : ch = ')'
              · rw [if_pos hcl]
                constructor
                · intro s h
                  cases h
                  exact endFunctionAndEvaluate_scan_args (deleteActiveChar st)
                    (by simp [h0])
                · intro s h
                  cases h
              · rw [if_neg hcl]
                constructor
                · intro s h
                  cases h
                  simp [h0, ha]
                · intro s h
                  cases h

theorem runFuel_inv : ∀ (fuel : Nat) (st : TState), st.scan = 0 → st.args = [] →
    ∀ s, runFuel fuel st = some s → s.active = [] ∧ s.args = [] := by
  intro fuel
  induction fuel with
  | zero => intro st _ _ s h; cases h
  | succ fuel ih =>
      intro st h0 ha s h
      unfold runFuel at h
      cases hstep : step st with
      | halt s1 =>
          rw [hstep] at h
          have hs : s1 = s := Option.some.inj h
          subst hs
          exact (step_cases st h0 ha).2 s1 hstep
      | cont s1 =>
          rw [hstep] at h
          obtain ⟨h01, ha1⟩ := (step_cases st h0 ha).1 s1 hstep
          exact ih s1 h01 ha1 s h

/-- C7 as stated is false; this is the corrected form: whenever the scan
loop of `execute` terminates, the final state has an empty active buffer
and an empty args vector, and the returned output is exactly the contents
of the neutral buffer — but neutral itself retains that output and frames
retains any unterminated invocation frames (the source only resets these
buffers at the start of the next `execute`). -/
theorem C7_after_execute_amended (fuel : Nat) (forms : Forms) (sink : List Char)
    (prog : List Char) (out : List Char) (st : TState)
    (h : executeFuel fuel forms sink prog = some (out, st)) :
    st.active = [] ∧ st.args = [] ∧ out = st.neutral := by
  unfold executeFuel at h
  cases hr : runFuel fuel (initState forms sink prog) with
  | none => rw [hr] at h; cases h
  | some st1 =>
      rw [hr] at h
      have hp : (st1.neutral, st1) = (out, st) := Option.some.inj h
      have hst : st1 = st := congrArg Prod.snd hp
      have hout : st1.neutral = out := congrArg Prod.fst hp
      subst hst
      obtain ⟨hact, hargs⟩ := runFuel_inv fuel (initState forms sink prog) rfl rfl st1 hr
      exact ⟨hact, hargs, hout.symm⟩

/-- Witness for C7 (amended): a terminating concrete run. -/
theorem C7_after_execute_amended_witness :
    (executeFuel 40 [] [] "((3+4))*9 = #(ml,#(ad,3,4),9)".toList).map
        (fun r => (r.2.active, r.2.args, r.1 = r.2.neutral))
      = some ([], [], True) := by
  have hrun : executeFuel 40 [] [] "((3+4))*9 = #(ml,#(ad,3,4),9)".toList
      = some ("(3+4)*9 = 63".toList,
          ⟨[], [], "(3+4)*9 = 63".toList, 0, [], [], []⟩) := by decide
  have h := C7_after_execute_amended 40 [] [] "((3+4))*9 = #(ml,#(ad,3,4),9)".toList
    "(3+4)*9 = 63".toList ⟨[], [], "(3+4)*9 = 63".toList, 0, [], [], []⟩ hrun
  rw [hrun]
  simp [h.2.2]

/-- Counterexample to C7 as stated: after executing `#(a` the neutral
buffer holds the output `a` (it is not empty) and one unterminated frame
remains on the stack (frames is not empty). -/
theorem C7_after_execute_counterexample :
    executeFuel 10 [] [] "#(a".toList
      = some (['a'], ⟨[], [], ['a'], 0, [⟨0, Mode.active, [], 0⟩], [], []⟩) ∧
    ¬((['a'] : List Char) = [] ∧ ([⟨0, Mode.active, [], 0⟩] : List Frame) = []) := by
  constructor
  · decide
  · decide

theorem endFunctionAndEvaluate_eq_active (st : TState) (frame : Frame)
    (rest : List Frame) (hfr : st.frames = frame :: rest)
    (hm : frame.mode = Mode.active) :
    endFunctionAndEvaluate st =
      { forms := (frameResult frame st).2.1,
        active := (frameResult frame st).1 ++ st.active.drop st.scan,
        neutral := st.neutral.take frame.begin ++ st.neutral.drop st.neutral.length,
        scan := 0, frames := rest, args := [],
        sink := (frameResult frame st).2.2 } := by
  unfold endFunctionAndEvaluate
  rw [hfr]
  dsimp only
  rw [hm]

theorem endFunctionAndEvaluate_eq_neutral (st : TState) (frame : Frame)
    (rest : List Frame) (hfr : st.frames = frame :: rest)
    (hm : frame.mode = Mode.neutral) :
    endFunctionAndEvaluate st =
      { forms := (frameResult frame st).2.1,
        active := st.active,
        neutral := (st.neutral.take frame.begin ++ st.neutral.drop st.neutral.length)
          ++ (frameResult frame st).1,
        scan := st.scan, frames := rest, args := [],
        sink := (frameResult frame st).2.2 } := by
  unfold endFunctionAndEvaluate
  rw [hfr]
  dsimp only
  rw [hm]

theorem endFunctionAndEvaluate_frames_inv (st : TState)
    (hord : framesOrdered st) (hbd : framesBounded st) :
    framesOrdered (endFunctionAndEvaluate st) ∧
    framesBounded (endFunctionAndEvaluate st) := by
  unfold framesOrdered framesBounded at *
  cases hfr : st.frames with
  | nil =>
      unfold endFunctionAndEvaluate
      rw [hfr]
      exact ⟨List.Pairwise.nil, by intro f hf; cases hf⟩
  | cons frame rest =>
      rw [hfr] at hord hbd
      have hfb : frame.begin ≤ st.neutral.length := hbd frame (by simp)
      obtain ⟨hhead, htail⟩ := List.pairwise_cons.mp hord
      cases hm : frame.mode
      · rw [endFunctionAndEvaluate_eq_active st frame rest hfr hm]
        refine ⟨htail, ?_⟩
        intro f hf
        have hle := hhead f hf
        simp only [List.length_append, List.length_take, List.length_drop]
        omega
      · rw [endFunctionAndEvaluate_eq_neutral st frame rest hfr hm]
        refine ⟨htail, ?_⟩
        intro f hf
        have hle := hhead f hf
        simp only [List.length_append, List.length_take, List.length_drop]
        omega

theorem step_frames_inv (st s : TState) (h : step st = StepRes.cont s)
    (hord : framesOrdered st) (hbd : framesBounded st) :
    framesOrdered s ∧ framesBounded s := by
  unfold framesOrdered framesBounded at *
  unfold step at h
  cases hch : st.active[st.scan]? with
  | none => rw [hch] at h; cases h
  | some ch =>
      rw [hch] at h
      dsimp only at h
      by_cases hskip : skipChars.contains ch
      · rw [if_pos hskip] at h
        cases h
        simpa using ⟨hord, hbd⟩
      · rw [if_neg hskip] at h
        by_cases hop : ch = '('
        · rw [if_pos hop] at h
          cases hq : consumeQuote 1 (st.active.drop (st.scan + 1)) with
          | some q =>
              rw [hq] at h
              cases h
              refine ⟨hord, ?_⟩
              intro f hf
              have := hbd f hf
              simp only [List.length_append]
              omega
          | none => rw [hq] at h; cases h
        · rw [if_neg hop] at h
          by_cases hcm : ch = ','
          · rw [if_pos hcm] at h
            cases h
            unfold markArgumentBoundary
            cases hfr : (deleteActiveChar st).frames with
            | nil => simp_all
            | cons f r =>
                rw [deleteActiveChar_frames] at hfr
                rw [hfr] at hord hbd
                obtain ⟨hhead, htail⟩ := List.pairwise_cons.mp hord
                constructor
                · exact List.pairwise_cons.mpr ⟨fun g hg => hhead g hg, htail⟩
                · intro g hg
                  simp only [List.mem_cons] at hg
                  rcases hg with rfl | hg
                  · simpa using hbd f (by simp)
                  · simpa using hbd g (by simp [hg])
          · rw [if_neg hcm] at h
            by_cases hhash : ch = '#'
            · rw [if_pos hhash] at h
              by_cases hp1 : peek st ['('] = true
              · rw [if_pos hp1] at h
                cases h
                unfold beginFunction
                constructor
                · refine List.pairwise_cons.mpr ⟨?_, by simpa using hord⟩
                  intro g hg
                  simp only [deleteActiveChar_frames] at hg
                  simpa using hbd g hg
                · intro g hg
                  simp only [List.mem_cons, deleteActiveChar_frames] at hg
                  rcases hg with rfl | hg
                  · simp
                  · simpa using hbd g hg
              · rw [if_neg hp1] at h
                by_cases hp2 : peek st ['#', '('] = true
                · rw [if_pos hp2] at h
                  cases h
                  unfold beginFunction
                  constructor
                  · refine List.pairwise_cons.mpr ⟨?_, by simpa using hord⟩
                    intro g hg
                    simp only [deleteActiveChar_frames] at hg
                    simpa using hbd g hg
                  · intro g hg
                    simp only [List.mem_cons, deleteActiveChar_frames] at hg
                    rcases hg with rfl | hg
                    · simp
                    · simpa using hbd g hg
                · rw [if_neg hp2] at h
                  cases h
                  refine ⟨by simpa using hord, ?_⟩
                  intro f hf
                  have := hbd f (by simpa using hf)
                  simp only [moveActiveCharToNeutral, List.length_append]
                  omega
            · rw [if_neg hhash] at h
              by_cases hcl : ch = ')'
              · rw [if_pos hcl] at h
                cases h
                have := endFunctionAndEvaluate_frames_inv (deleteActiveChar st)
                  (by simpa [framesOrdered] using hord)
                  (by simpa [framesBounded] using hbd)
                exact this
              · rw [if_neg hcl] at h
                cases h
                refine ⟨by simpa using hord, ?_⟩
                intro f hf
                have := hbd f (by simpa using hf)
                simp only [moveActiveCharToNeutral, List.length_append]
                omega

theorem iterateCont_frames_inv : ∀ (k : Nat) (st0 st : TState),
    framesOrdered st0 → framesBounded st0 →
    iterateCont k st0 = some st → framesOrdered st ∧ framesBounded st := by
  intro k
  induction k with
  | zero =>
      intro st0 st h1 h2 h
      have := Option.some.inj h
      subst this
      exact ⟨h1, h2⟩
  | succ k ih =>
      intro st0 st h1 h2 h
      unfold iterateCont at h
      cases hstep : step st0 with
      | halt s1 => rw [hstep] at h; cases h
      | cont s1 =>
          rw [hstep] at h
          obtain ⟨h1', h2'⟩ := step_frames_inv st0 s1 hstep h1 h2
          exact ih s1 st h1' h2' h

/-- C9 as stated (strict ordering) is false; this is the corrected form:
in every state reachable during a run of `execute`, the frames on the
stack are in weakly increasing `begin` order, the innermost (most
recently pushed) frame's `begin` being greatest: two frames pushed with
no intervening neutral output share the same `begin`. -/
theorem C9_frames_ordered_amended (forms : Forms) (sink : List Char)
    (prog : List Char) (k : Nat) (st : TState)
    (h : iterateCont k (initState forms sink prog) = some st) :
    framesOrdered st ∧
    (∀ f g, st.frames.head? = some f → g ∈ st.frames → g.begin ≤ f.begin) := by
  obtain ⟨hord, _⟩ := iterateCont_frames_inv k (initState forms sink prog) st
    List.Pairwise.nil (by intro f hf; cases hf) h
  refine ⟨hord, ?_⟩
  intro f g hh hg
  cases hfr : st.frames with
  | nil => rw [hfr] at hh; cases hh
  | cons f0 r =>
      rw [hfr] at hh hg
      have hf0 : f0 = f := by simpa using hh
      subst hf0
      unfold framesOrdered at hord
      rw [hfr] at hord
      obtain ⟨hhead, _⟩ := List.pairwise_cons.mp hord
      simp only [List.mem_cons] at hg
      rcases hg with rfl | hg
      · exact le_refl _
      · exact hhead g hg

/-- Witness for C9 (amended): the state reached after three steps of
`#(x#(` has its two frames weakly ordered. -/
theorem C9_frames_ordered_amended_witness :
    framesOrdered ⟨[], [], ['x'], 0,
      [⟨1, Mode.active, [], 1⟩, ⟨0, Mode.active, [], 0⟩], [], []⟩ ∧
    (∀ f g, ([⟨1, Mode.active, [], 1⟩, ⟨0, Mode.active, [], 0⟩] :
        List Frame).head? = some f →
      g ∈ ([⟨1, Mode.active, [], 1⟩, ⟨0, Mode.active, [], 0⟩] : List Frame) →
      g.begin ≤ f.begin) := by
  have h := C9_frames_ordered_amended [] [] "#(x#(".toList 3
    ⟨[], [], ['x'], 0, [⟨1, Mode.active, [], 1⟩, ⟨0, Mode.active, [], 0⟩], [], []⟩
    (by decide)
  exact h

/-- Counterexample to C9 as stated: after scanning `#(#(` the stack holds
two frames whose `begin` are both 0 — reachable, but not *strictly*
increasing. -/
theorem C9_frames_ordered_counterexample :
    iterateCont 2 (initState [] [] "#(#(x".toList)
      = some ⟨[], ['x'], [], 0,
          [⟨0, Mode.active, [], 0⟩, ⟨0, Mode.active, [], 0⟩], [], []⟩ ∧
    ¬ framesStrictlyOrdered ⟨[], ['x'], [], 0,
          [⟨0, Mode.active, [], 0⟩, ⟨0, Mode.active, [], 0⟩], [], []⟩ := by
  constructor
  · decide
  · unfold framesStrictlyOrdered
    intro h
    obtain ⟨hhead, _⟩ := List.pairwise_cons.mp h
    have := hhead ⟨0, Mode.active, [], 0⟩ (by simp)
    omega

theorem segSplitF_commute (av : Nat → List Char) (i : Nat) (p : List Char) :
    ∀ (f : Nat) (s : List Char),
      segSplitF p (av i) f s = (splitOnPatF p i f s).map (toSeg av) := by
  intro f
  induction f with
  | zero => intro s; rfl
  | succ f ih =>
      intro s
      simp only [segSplitF, splitOnPatF]
      cases hq : findSplit p s with
      | none => rfl
      | some q => simp [toSeg, ih q.2]

theorem mergeSegsStep_commute (av : Nat → List Char) (acc : List TPart)
    (item : TPart) :
    mergeSegsStep (acc.map (toSeg av)) (toSeg av item)
      = (mergePartsStep acc item).map (toSeg av) := by
  cases hl : acc.getLast? with
  | none =>
      have hl' : (acc.map (toSeg av)).getLast? = none := by
        rw [List.getLast?_map, hl]; rfl
      cases item <;>
        simp [mergeSegsStep, mergePartsStep, hl, hl', toSeg]
  | some lastp =>
      have hl' : (acc.map (toSeg av)).getLast? = some (toSeg av lastp) := by
        rw [List.getLast?_map, hl]; rfl
      cases lastp with
      | str a =>
          cases item <;>
            simp [mergeSegsStep, mergePartsStep, hl, hl', toSeg, List.map_dropLast]
      | marker m =>
          cases item <;>
            simp [mergeSegsStep, mergePartsStep, hl, hl', toSeg]

theorem mergeFold_commute (av : Nat → List Char) :
    ∀ (l acc : List TPart),
      (l.map (toSeg av)).foldl mergeSegsStep (acc.map (toSeg av))
        = (l.foldl mergePartsStep acc).map (toSeg av) := by
  intro l
  induction l with
  | nil => intro acc; rfl
  | cons x xs ih =>
      intro acc
      simp only [List.map_cons, List.foldl_cons]
      rw [mergeSegsStep_commute av acc x]
      exact ih (mergePartsStep acc x)

theorem segReplace_commute (av : Nat → List Char) (p : List Char) (i : Nat)
    (parts : List TPart) :
    segReplace (parts.map (toSeg av)) p (av i)
      = (replace_pattern_in_parts parts p i).map (toSeg av) := by
  by_cases hp : p = []
  · simp [segReplace, replace_pattern_in_parts, hp]
  · unfold segReplace replace_pattern_in_parts
    rw [if_neg hp, if_neg hp]
    unfold mergeParts
    rw [show (parts.map (toSeg av)).flatMap (fun seg =>
          match seg with
          | Seg.filled s => [Seg.filled s]
          | Seg.raw s => segSplit p (av i) s)
        = (parts.flatMap fun part =>
            match part with
            | TPart.marker m => [TPart.marker m]
            | TPart.str s => splitOnPat p i s).map (toSeg av) from ?_]
    · exact mergeFold_commute av _ []
    · rw [List.flatMap_map, List.map_flatMap]
      congr 1
      funext part
      cases part with
      | str s => exact segSplitF_commute av i p (s.length + 1) s
      | marker m => rfl

theorem specSubstSegs_commute (av : Nat → List Char) :
    ∀ (ips : List (Nat × List Char)) (parts : List TPart),
      specSubstSegs (ips.map fun q => (q.2, av q.1)) (parts.map (toSeg av))
        = (ips.foldl
            (fun ps q => if q.2 ≠ [] then replace_pattern_in_parts ps q.2 q.1 else ps)
            parts).map (toSeg av) := by
  intro ips
  induction ips with
  | nil => intro parts; rfl
  | cons q rest ih =>
      intro parts
      simp only [List.map_cons, specSubstSegs, List.foldl_cons]
      by_cases hq : q.2 = []
      · rw [if_neg (by simpa using hq)]
        have hskip : segReplace (parts.map (toSeg av)) q.2 (av q.1)
            = parts.map (toSeg av) := by
          simp [segReplace, hq]
        rw [show (List.foldl (fun acc r => segReplace acc r.1 r.2)
              (segReplace (parts.map (toSeg av)) q.2 (av q.1))
              (rest.map fun r => (r.2, av r.1)))
            = specSubstSegs (rest.map fun r => (r.2, av r.1))
                (parts.map (toSeg av)) from by rw [hskip]; rfl]
        exact ih parts
      · rw [if_pos (by simpa using hq)]
        have hrw := segReplace_commute av q.2 q.1 parts
        rw [show (List.foldl (fun acc r => segReplace acc r.1 r.2)
              (segReplace (parts.map (toSeg av)) q.2 (av q.1))
              (rest.map fun r => (r.2, av r.1)))
            = specSubstSegs (rest.map fun r => (r.2, av r.1))
                ((replace_pattern_in_parts parts q.2 q.1).map (toSeg av)) from by
            rw [hrw]; rfl]
        exact ih (replace_pattern_in_parts parts q.2 q.1)

theorem enumFrom_map_zip (av : Nat → List Char) :
    ∀ (pats As : List (List Char)) (j : Nat), pats.length = As.length →
      (∀ t, t < pats.length → av (j + t) = As.getD t []) →
      (List.enumFrom j pats).map (fun q => (q.2, av q.1)) = pats.zip As := by
  intro pats
  induction pats with
  | nil =>
      intro As j hlen _
      cases As with
      | nil => rfl
      | cons a ar => cases hlen
  | cons p pr ih =>
      intro As j hlen hav
      cases As with
      | nil => cases hlen
      | cons a ar =>
          rw [List.enumFrom_cons]
          simp only [List.map_cons, List.zip_cons_cons]
          have h0 : av j = a := by simpa using hav 0 (by simp)
          have htail := ih ar (j + 1) (by simpa using hlen) (by
            intro t ht
            have := hav (t + 1) (by simpa using Nat.succ_lt_succ ht)
            rw [show j + 1 + t = j + (t + 1) from by omega]
            simpa using this)
          rw [h0, htail]

theorem clFill_flattenSegs (parts : List TPart) (cargs : List (List Char)) :
    clFill parts cargs = flattenSegs (parts.map (toSeg (markerVal cargs))) := by
  unfold clFill flattenSegs
  rw [List.map_map]
  exact congrArg List.flatten (List.map_congr_left fun part _ => by cases part <;> rfl)

/-- C2: for a form defined with body `B`, running `#(ss,N,P1,..,Pk)` and
then `#(cl,N,A1,..,Ak)` (the `ss` and `cl` primitives on the stored form)
yields `B` with every occurrence of `Pi` replaced by `Ai`, matching
left-to-right and non-overlapping with substituted text protected from
further matching, as expressed by the spec-modelled `specSubst`; an empty
`Pi` is skipped but still occupies its ordinal position `i`, so the
numbering of the remaining patterns is not shifted. -/
theorem C2_segment_substitution (N B : List Char) (pats As : List (List Char))
    (forms : Forms) (hlen : pats.length = As.length)
    (_hind : patternsIndependent B pats = true) :
    cl (N :: As) (ss (N :: pats) (formsSet forms N [TPart.str B])).2
      = specSubst B (pats.zip As) := by
  have hss : (ss (N :: pats) (formsSet forms N [TPart.str B])).2
      = formsSet (formsSet forms N [TPart.str B]) N (ssPasses [TPart.str B] pats) := by
    unfold ss
    simp [argGet, formsGet_formsSet]
  rw [hss]
  have hcl : cl (N :: As) (formsSet (formsSet forms N [TPart.str B]) N
      (ssPasses [TPart.str B] pats))
      = clFill (ssPasses [TPart.str B] pats) (N :: As) := by
    unfold cl
    simp [argGet, formsGet_formsSet]
  rw [hcl, clFill_flattenSegs]
  unfold specSubst
  congr 1
  have hzip : (List.enumFrom 1 pats).map
      (fun q => (q.2, markerVal (N :: As) q.1)) = pats.zip As := by
    refine enumFrom_map_zip (markerVal (N :: As)) pats As 1 hlen ?_
    intro t ht
    unfold markerVal argGet
    rw [if_pos (by omega)]
    show (N :: As).getD (1 + t) [] = As.getD t []
    rw [show 1 + t = t + 1 from by omega]
    simp [List.getD]
  rw [← hzip]
  exact (specSubstSegs_commute (markerVal (N :: As)) (List.enumFrom 1 pats)
    [TPart.str B]).symm

/-- Witness for C2: body `aXbYc`, patterns `X`, `` (empty, skipped), `Y`,
arguments `1`, `zz`, `22`: the empty second pattern does not shift the
numbering, so `Y` is still marker 3 and receives `22`. -/
theorem C2_segment_substitution_witness :
    cl ["F".toList, "1".toList, "zz".toList, "22".toList]
        (ss ["F".toList, "X".toList, [], "Y".toList]
          (formsSet [] "F".toList [TPart.str "aXbYc".toList])).2
      = specSubst "aXbYc".toList
          (["X".toList, [], "Y".toList].zip ["1".toList, "zz".toList, "22".toList]) :=
  C2_segment_substitution "F".toList "aXbYc".toList
    ["X".toList, [], "Y".toList] ["1".toList, "zz".toList, "22".toList] []
    (by decide) (by decide)

theorem digitChar_facts : ∀ m : Nat, m < 10 →
    (Char.ofNat (48 + m)).isDigit = true ∧
    (Char.ofNat (48 + m)).toNat = 48 + m ∧
    Char.ofNat (48 + m) ≠ '-' ∧ Char.ofNat (48 + m) ≠ '+' := by decide

theorem decDigitsF_spec : ∀ (f n : Nat), n ≤ f →
    (∀ c ∈ decDigitsF f n, c.isDigit = true) ∧
    (∀ a : Nat, (decDigitsF f n).foldl (fun a c => 10 * a + (c.toNat - 48)) a
        = a * 10 ^ (decDigitsF f n).length + n) := by
  intro f
  induction f with
  | zero =>
      intro n hn
      have h0 : n = 0 := by omega
      subst h0
      refine ⟨?_, ?_⟩
      · intro c hc
        simp [decDigitsF] at hc
      · intro a
        simp [decDigitsF]
  | succ f ih =>
      intro n hn
      by_cases h0 : n = 0
      · subst h0
        refine ⟨?_, ?_⟩
        · intro c hc
          simp [decDigitsF] at hc
        · intro a
          simp [decDigitsF]
      · have hmod : n % 10 < 10 := Nat.mod_lt _ (by norm_num)
        have hdiv : n / 10 ≤ f := by
          have := Nat.div_lt_self (Nat.pos_of_ne_zero h0) (by norm_num : 1 < 10)
          omega
        obtain ⟨ihd, ihf⟩ := ih (n / 10) hdiv
        have hrw : decDigitsF (f + 1) n
            = decDigitsF f (n / 10) ++ [Char.ofNat (48 + n % 10)] := by
          simp [decDigitsF, h0]
        constructor
        · intro c hc
          rw [hrw] at hc
          rcases List.mem_append.mp hc with hc | hc
          · exact ihd c hc
          · have : c = Char.ofNat (48 + n % 10) := by simpa using hc
            subst this
            exact (digitChar_facts _ hmod).1
        · intro a
          rw [hrw, List.foldl_append]
          rw [ihf a]
          simp only [List.foldl_cons, List.foldl_nil, List.length_append,
            List.length_cons, List.length_nil]
          rw [(digitChar_facts _ hmod).2.1]
          have hsub : 48 + n % 10 - 48 = n % 10 := by omega
          rw [hsub]
          have hdm : 10 * (n / 10) + n % 10 = n := Nat.div_add_mod n 10
          calc 10 * (a * 10 ^ (decDigitsF f (n / 10)).length + n / 10) + n % 10
              = a * (10 ^ (decDigitsF f (n / 10)).length * 10)
                  + (10 * (n / 10) + n % 10) := by ring
            _ = a * 10 ^ ((decDigitsF f (n / 10)).length + 1) + n := by
                rw [hdm, pow_succ]

theorem toDecNat_ne_nil (n : Nat) : toDecNat n ≠ [] := by
  unfold toDecNat
  by_cases h0 : n = 0
  · simp [h0]
  · rw [if_neg h0]
    cases n with
    | zero => exact absurd rfl h0
    | succ m => simp [decDigitsF, h0]

theorem toDecNat_all_digit (n : Nat) : ∀ c ∈ toDecNat n, c.isDigit = true := by
  by_cases h0 : n = 0
  · subst h0
    decide
  · unfold toDecNat
    rw [if_neg h0]
    exact (decDigitsF_spec n n le_rfl).1

theorem parseNatDigits_toDecNat (n : Nat) : parseNatDigits (toDecNat n) = some n := by
  by_cases h0 : n = 0
  · subst h0; decide
  · have hne : toDecNat n ≠ [] := toDecNat_ne_nil n
    have hdig : (toDecNat n).all Char.isDigit = true :=
      List.all_eq_true.mpr (toDecNat_all_digit n)
    unfold parseNatDigits
    rw [if_neg hne, if_pos hdig]
    unfold toDecNat
    rw [if_neg h0]
    rw [(decDigitsF_spec n n le_rfl).2 0]
    simp

theorem parseInt_digits (s : List Char) (hne : s ≠ [])
    (hdig : ∀ c ∈ s, c.isDigit = true) :
    parseInt s = (parseNatDigits s).map fun n => (n : Int) := by
  cases s with
  | nil => exact absurd rfl hne
  | cons c cs =>
      have hc := hdig c (by simp)
      have h1 : c ≠ '-' := by rintro rfl; exact absurd hc (by decide)
      have h2 : c ≠ '+' := by rintro rfl; exact absurd hc (by decide)
      unfold parseInt
      split
      · next rest heq =>
          exact absurd (List.cons.inj heq).1 h1
      · next rest heq =>
          exact absurd (List.cons.inj heq).1 h2
      · rfl

theorem parseInt_toDecInt (i : Int) : parseInt (toDecInt i) = some i := by
  unfold toDecInt
  by_cases hneg : i < 0
  · rw [if_pos hneg]
    have hm : parseInt ('-' :: toDecNat i.natAbs)
        = (parseNatDigits (toDecNat i.natAbs)).map fun n => -(n : Int) := rfl
    rw [hm, parseNatDigits_toDecNat]
    have habs : (i.natAbs : Int) = -i := Int.ofNat_natAbs_of_nonpos (le_of_lt hneg)
    simp [habs]
  · rw [if_neg hneg]
    rw [parseInt_digits (toDecNat i.natAbs) (toDecNat_ne_nil _) (toDecNat_all_digit _)]
    rw [parseNatDigits_toDecNat]
    have habs : (i.natAbs : Int) = i := Int.natAbs_of_nonneg (by omega)
    simp [habs]

theorem toDecInt_ne_nil (i : Int) : toDecInt i ≠ [] := by
  unfold toDecInt
  by_cases hneg : i < 0
  · simp [hneg]
  · rw [if_neg hneg]
    exact toDecNat_ne_nil _

theorem intOfPyArg_toDecInt (i : Int) : intOfPyArg (toDecInt i) = some i := by
  unfold intOfPyArg
  rw [if_neg (toDecInt_ne_nil i)]
  exact parseInt_toDecInt i

theorem iterateCont_step1 (st s : TState) (h : step st = StepRes.cont s) (n : Nat) :
    iterateCont (n + 1) st = iterateCont n s := by
  simp only [iterateCont, h]

theorem iterateCont_trans : ∀ (k1 : Nat) (st s : TState),
    iterateCont k1 st = some s → ∀ k2, iterateCont (k1 + k2) st = iterateCont k2 s := by
  intro k1
  induction k1 with
  | zero =>
      intro st s h k2
      have := Option.some.inj h
      subst this
      simp
  | succ k ih =>
      intro st s h k2
      cases hstep : step st with
      | halt s1 =>
          rw [iterateCont, hstep] at h
          cases h
      | cont s1 =>
          rw [iterateCont, hstep] at h
          rw [show k + 1 + k2 = (k + k2) + 1 from by omega,
            iterateCont_step1 st s1 hstep]
          exact ih s1 s h k2

theorem runFuel_after : ∀ (k : Nat) (st s : TState),
    iterateCont k st = some s → ∀ f, runFuel (k + f) st = runFuel f s := by
  intro k
  induction k with
  | zero =>
      intro st s h f
      have := Option.some.inj h
      subst this
      simp
  | succ k ih =>
      intro st s h f
      cases hstep : step st with
      | halt s1 =>
          rw [iterateCont, hstep] at h
          cases h
      | cont s1 =>
          rw [iterateCont, hstep] at h
          rw [show k + 1 + f = (k + f) + 1 from by omega]
          rw [show runFuel ((k + f) + 1) st = runFuel (k + f) s1 from by
            simp only [runFuel, hstep]]
          exact ih s1 s h f

theorem runFuel_halt (st : TState) (h : step st = StepRes.halt st) (f : Nat) :
    runFuel (f + 1) st = some st := by
  rw [runFuel, h]

theorem factChunk0 : iterateCont 400 (initState factorialStore [] factorialCl50)
    = some (⟨[("Factorial".toList, [TPart.str "#(eq,".toList, TPart.marker 1, TPart.str ",1,1,(#(ml,".toList, TPart.marker 1, TPart.str ",#(cl,Factorial,#(su,".toList, TPart.marker 1, TPart.str ",1)))))".toList])], "l,42,#(cl,Factorial,#(su,42,1)))))))))))".toList, "ml50ml49ml48ml47ml46ml45ml44ml43m".toList, 0, [⟨32, Mode.active, [], 32⟩, ⟨28, Mode.active, [(28, 30), (30, 32)], 32⟩, ⟨24, Mode.active, [(24, 26), (26, 28)], 28⟩, ⟨20, Mode.active, [(20, 22), (22, 24)], 24⟩, ⟨16, Mode.active, [(16, 18), (18, 20)], 20⟩, ⟨12, Mode.active, [(12, 14), (14, 16)], 16⟩, ⟨8, Mode.active, [(8, 10), (10, 12)], 12⟩, ⟨4, Mode.active, [(4, 6), (6, 8)], 8⟩, ⟨0, Mode.active, [(0, 2), (2, 4)], 4⟩], [], "".toList⟩ : TState) := by decide

theorem factChunk1 : iterateCont 400 (⟨[("Factorial".toList, [TPart.str "#(eq,".toList, TPart.marker 1, TPart.str ",1,1,(#(ml,".toList, TPart.marker 1, TPart.str ",#(cl,Factorial,#(su,".toList, TPart.marker 1, TPart.str ",1)))))".toList])], "l,42,#(cl,Factorial,#(su,42,1)))))))))))".toList, "ml50ml49ml48ml47ml46ml45ml44ml43m".toList, 0, [⟨32, Mode.active, [], 32⟩, ⟨28, Mode.active, [(28, 30), (30, 32)], 32⟩, ⟨24, Mode.active, [(24, 26), (26, 28)], 28⟩, ⟨20, Mode.active, [(20, 22), (22, 24)], 24⟩, ⟨16, Mode.active, [(16, 18), (18, 20)], 20⟩, ⟨12, Mode.active, [(12, 14), (14, 16)], 16⟩, ⟨8, Mode.active, [(8, 10), (10, 12)], 12⟩, ⟨4, Mode.active, [(4, 6), (6, 8)], 8⟩, ⟨0, Mode.active, [(0, 2), (2, 4)], 4⟩], [], "".toList⟩ : TState)
    = some (⟨[("Factorial".toList, [TPart.str "#(eq,".toList, TPart.marker 1, TPart.str ",1,1,(#(ml,".toList, TPart.marker 1, TPart.str ",#(cl,Factorial,#(su,".toList, TPart.marker 1, TPart.str ",1)))))".toList])], "eq,33,1,1,(#(ml,33,#(cl,Factorial,#(su,33,1))))))))))))))))))))))".toList, "ml50ml49ml48ml47ml46ml45ml44ml43ml42ml41ml40ml39ml38ml37ml36ml35ml34".toList, 0, [⟨68, Mode.active, [], 68⟩, ⟨64, Mode.active, [(64, 66), (66, 68)], 68⟩, ⟨60, Mode.active, [(60, 62), (62, 64)], 64⟩, ⟨56, Mode.active, [(56, 58), (58, 60)], 60⟩, ⟨52, Mode.active, [(52, 54), (54, 56)], 56⟩, ⟨48, Mode.active, [(48, 50), (50, 52)], 52⟩, ⟨44, Mode.active, [(44, 46), (46, 48)], 48⟩, ⟨40, Mode.active, [(40, 42), (42, 44)], 44⟩, ⟨36, Mode.active, [(36, 38), (38, 40)], 40⟩, ⟨32, Mode.active, [(32, 34), (34, 36)], 36⟩, ⟨28, Mode.active, [(28, 30), (30, 32)], 32⟩, ⟨24, Mode.active, [(24, 26), (26, 28)], 28⟩, ⟨20, Mode.active, [(20, 22), (22, 24)], 24⟩, ⟨16, Mode.active, [(16, 18), (18, 20)], 20⟩, ⟨12, Mode.active, [(12, 14), (14, 16)], 16⟩, ⟨8, Mode.active, [(8, 10), (10, 12)], 12⟩, ⟨4, Mode.active, [(4, 6), (6, 8)], 8⟩, ⟨0, Mode.active, [(0, 2), (2, 4)], 4⟩], [], "".toList⟩ : TState) := by decide

theorem factChunk2 : iterateCont 400 (⟨[("Factorial".toList, [TPart.str "#(eq,".toList, TPart.marker 1, TPart.str ",1,1,(#(ml,".toList, TPart.marker 1, TPart.str ",#(cl,Factorial,#(su,".toList, TPart.marker 1, TPart.str ",1)))))".toList])], "eq,33,1,1,(#(ml,33,#(cl,Factorial,#(su,33,1))))))))))))))))))))))".toList, "ml50ml49ml48ml47ml46ml45ml44ml43ml42ml41ml40ml39ml38ml37ml36ml35ml34".toList, 0, [⟨68, Mode.active, [], 68⟩, ⟨64, Mode.active, [(64, 66), (66, 68)], 68⟩, ⟨60, Mode.active, [(60, 62), (62, 64)], 64⟩, ⟨56, Mode.active, [(56, 58), (58, 60)], 60⟩, ⟨52, Mode.active, [(52, 54), (54, 56)], 56⟩, ⟨48, Mode.active, [(48, 50), (50, 52)], 52⟩, ⟨44, Mode.active, [(44, 46), (46, 48)], 48⟩, ⟨40, Mode.active, [(40, 42), (42, 44)], 44⟩, ⟨36, Mode.active, [(36, 38), (38, 40)], 40⟩, ⟨32, Mode.active, [(32, 34), (34, 36)], 36⟩, ⟨28, Mode.active, [(28, 30), (30, 32)], 32⟩, ⟨24, Mode.active, [(24, 26), (26, 28)], 28⟩, ⟨20, Mode.active, [(20, 22), (22, 24)], 24⟩, ⟨16, Mode.active, [(16, 18), (18, 20)], 20⟩, ⟨12, Mode.active, [(12, 14), (14, 16)], 16⟩, ⟨8, Mode.active, [(8, 10), (10, 12)], 12⟩, ⟨4, Mode.active, [(4, 6), (6, 8)], 8⟩, ⟨0, Mode.active, [(0, 2), (2, 4)], 4⟩], [], "".toList⟩ : TState)
    = some (⟨[("Factorial".toList, [TPart.str "#(eq,".toList, TPart.marker 1, TPart.str ",1,1,(#(ml,".toList, TPart.marker 1, TPart.str ",#(cl,Factorial,#(su,".toList, TPart.marker 1, TPart.str ",1)))))".toList])], ",#(su,25,1))))))))))))))))))))))))))))".toList, "ml50ml49ml48ml47ml46ml45ml44ml43ml42ml41ml40ml39ml38ml37ml36ml35ml34ml33ml32ml31ml30ml29ml28ml27ml26ml25clFactorial".toList, 0, [⟨104, Mode.active, [(104, 106)], 106⟩, ⟨100, Mode.active, [(100, 102), (102, 104)], 104⟩, ⟨96, Mode.active, [(96, 98), (98, 100)], 100⟩, ⟨92, Mode.active, [(92, 94), (94, 96)], 96⟩, ⟨88, Mode.active, [(88, 90), (90, 92)], 92⟩, ⟨84, Mode.active, [(84, 86), (86, 88)], 88⟩, ⟨80, Mode.active, [(80, 82), (82, 84)], 84⟩, ⟨76, Mode.active, [(76, 78), (78, 80)], 80⟩, ⟨72, Mode.active, [(72, 74), (74, 76)], 76⟩, ⟨68, Mode.active, [(68, 70), (70, 72)], 72⟩, ⟨64, Mode.active, [(64, 66), (66, 68)], 68⟩, ⟨60, Mode.active, [(60, 62), (62, 64)], 64⟩, ⟨56, Mode.active, [(56, 58), (58, 60)], 60⟩, ⟨52, Mode.active, [(52, 54), (54, 56)], 56⟩, ⟨48, Mode.active, [(48, 50), (50, 52)], 52⟩, ⟨44, Mode.active, [(44, 46), (46, 48)], 48⟩, ⟨40, Mode.active, [(40, 42), (42, 44)], 44⟩, ⟨36, Mode.active, [(36, 38), (38, 40)], 40⟩, ⟨32, Mode.active, [(32, 34), (34, 36)], 36⟩, ⟨28, Mode.active, [(28, 30), (30, 32)], 32⟩, ⟨24, Mode.active, [(24, 26), (26, 28)], 28⟩, ⟨20, Mode.active, [(20, 22), (22, 24)], 24⟩, ⟨16, Mode.active, [(16, 18), (18, 20)], 20⟩, ⟨12, Mode.active, [(12, 14), (14, 16)], 16⟩, ⟨8, Mode.active, [(8, 10), (10, 12)], 12⟩, ⟨4, Mode.active, [(4, 6), (6, 8)], 8⟩, ⟨0, Mode.active, [(0, 2), (2, 4)], 4⟩], [], "".toList⟩ : TState) := by decide

theorem factChunk3 : iterateCont 400 (⟨[("Factorial".toList, [TPart.str "#(eq,".toList, TPart.marker 1, TPart.str ",1,1,(#(ml,".toList, TPart.marker 1, TPart.str ",#(cl,Factorial,#(su,".toList, TPart.marker 1, TPart.str ",1)))))".toList])], ",#(su,25,1))))))))))))))))))))))))))))".toList, "ml50ml49ml48ml47ml46ml45ml44ml43ml42ml41ml40ml39ml38ml37ml36ml35ml34ml33ml32ml31ml30ml29ml28ml27ml26ml25clFactorial".toList, 0, [⟨104, Mode.active, [(104, 106)], 106⟩, ⟨100, Mode.active, [(100, 102), (102, 104)], 104⟩, ⟨96, Mode.active, [(96, 98), (98, 100)], 100⟩, ⟨92, Mode.active, [(92, 94), (94, 96)], 96⟩, ⟨88, Mode.active, [(88, 90), (90, 92)], 92⟩, ⟨84, Mode.active, [(84, 86), (86, 88)], 88⟩, ⟨80, Mode.active, [(80, 82), (82, 84)], 84⟩, ⟨76, Mode.active, [(76, 78), (78, 80)], 80⟩, ⟨72, Mode.active, [(72, 74), (74, 76)], 76⟩, ⟨68, Mode.active, [(68, 70), (70, 72)], 72⟩, ⟨64, Mode.active, [(64, 66), (66, 68)], 68⟩, ⟨60, Mode.active, [(60, 62), (62, 64)], 64⟩, ⟨56, Mode.active, [(56, 58), (58, 60)], 60⟩, ⟨52, Mode.active, [(52, 54), (54, 56)], 56⟩, ⟨48, Mode.active, [(48, 50), (50, 52)], 52⟩, ⟨44, Mode.active, [(44, 46), (46, 48)], 48⟩, ⟨40, Mode.active, [(40, 42), (42, 44)], 44⟩, ⟨36, Mode.active, [(36, 38), (38, 40)], 40⟩, ⟨32, Mode.active, [(32, 34), (34, 36)], 36⟩, ⟨28, Mode.active, [(28, 30), (30, 32)], 32⟩, ⟨24, Mode.active, [(24, 26), (26, 28)], 28⟩, ⟨20, Mode.active, [(20, 22), (22, 24)], 24⟩, ⟨16, Mode.active, [(16, 18), (18, 20)], 20⟩, ⟨12, Mode.active, [(12, 14), (14, 16)], 16⟩, ⟨8, Mode.active, [(8, 10), (10, 12)], 12⟩, ⟨4, Mode.active, [(4, 6), (6, 8)], 8⟩, ⟨0, Mode.active, [(0, 2), (2, 4)], 4⟩], [], "".toList⟩ : TState)
    = some (⟨[("Factorial".toList, [TPart.str "#(eq,".toList, TPart.marker 1, TPart.str ",1,1,(#(ml,".toList, TPart.marker 1, TPart.str ",#(cl,Factorial,#(su,".toList, TPart.marker 1, TPart.str ",1)))))".toList])], ",#(cl,Factorial,#(su,16,1)))))))))))))))))))))))))))))))))))))".toList, "ml50ml49ml48ml47ml46ml45ml44ml43ml42ml41ml40ml39ml38ml37ml36ml35ml34ml33ml32ml31ml30ml29ml28ml27ml26ml25ml24ml23ml22ml21ml20ml19ml18ml17ml16".toList, 0, [⟨136, Mode.active, [(136, 138)], 138⟩, ⟨132, Mode.active, [(132, 134), (134, 136)], 136⟩, ⟨128, Mode.active, [(128, 130), (130, 132)], 132⟩, ⟨124, Mode.active, [(124, 126), (126, 128)], 128⟩, ⟨120, Mode.active, [(120, 122), (122, 124)], 124⟩, ⟨116, Mode.active, [(116, 118), (118, 120)], 120⟩, ⟨112, Mode.active, [(112, 114), (114, 116)], 116⟩, ⟨108, Mode.active, [(108, 110), (110, 112)], 112⟩, ⟨104, Mode.active, [(104, 106), (106, 108)], 108⟩, ⟨100, Mode.active, [(100, 102), (102, 104)], 104⟩, ⟨96, Mode.active, [(96, 98), (98, 100)], 100⟩, ⟨92, Mode.active, [(92, 94), (94, 96)], 96⟩, ⟨88, Mode.active, [(88, 90), (90, 92)], 92⟩, ⟨84, Mode.active, [(84, 86), (86, 88)], 88⟩, ⟨80, Mode.active, [(80, 82), (82, 84)], 84⟩, ⟨76, Mode.active, [(76, 78), (78, 80)], 80⟩, ⟨72, Mode.active, [(72, 74), (74, 76)], 76⟩, ⟨68, Mode.active, [(68, 70), (70, 72)], 72⟩, ⟨64, Mode.active, [(64, 66), (66, 68)], 68⟩, ⟨60, Mode.active, [(60, 62), (62, 64)], 64⟩, ⟨56, Mode.active, [(56, 58), (58, 60)], 60⟩, ⟨52, Mode.active, [(52, 54), (54, 56)], 56⟩, ⟨48, Mode.active, [(48, 50), (50, 52)], 52⟩, ⟨44, Mode.active, [(44, 46), (46, 48)], 48⟩, ⟨40, Mode.active, [(40, 42), (42, 44)], 44⟩, ⟨36, Mode.active, [(36, 38), (38, 40)], 40⟩, ⟨32, Mode.active, [(32, 34), (34, 36)], 36⟩, ⟨28, Mode.active, [(28, 30), (30, 32)], 32⟩, ⟨24, Mode.active, [(24, 26), (26, 28)], 28⟩, ⟨20, Mode.active, [(20, 22), (22, 24)], 24⟩, ⟨16, Mode.active, [(16, 18), (18, 20)], 20⟩, ⟨12, Mode.active, [(12, 14), (14, 16)], 16⟩, ⟨8, Mode.active, [(8, 10), (10, 12)], 12⟩, ⟨4, Mode.active, [(4, 6), (6, 8)], 8⟩, ⟨0, Mode.active, [(0, 2), (2, 4)], 4⟩], [], "".toList⟩ : TState) := by decide

theorem factChunk4 : iterateCont 400 (⟨[("Factorial".toList, [TPart.str "#(eq,".toList, TPart.marker 1, TPart.str ",1,1,(#(ml,".toList, TPart.marker 1, TPart.str ",#(cl,Factorial,#(su,".toList, TPart.marker 1, TPart.str ",1)))))".toList])], ",#(cl,Factorial,#(su,16,1)))))))))))))))))))))))))))))))))))))".toList, "ml50ml49ml48ml47ml46ml45ml44ml43ml42ml41ml40ml39ml38ml37ml36ml35ml34ml33ml32ml31ml30ml29ml28ml27ml26ml25ml24ml23ml22ml21ml20ml19ml18ml17ml16".toList, 0, [⟨136, Mode.active, [(136, 138)], 138⟩, ⟨132, Mode.active, [(132, 134), (134, 136)], 136⟩, ⟨128, Mode.active, [(128, 130), (130, 132)], 132⟩, ⟨124, Mode.active, [(124, 126), (126, 128)], 128⟩, ⟨120, Mode.active, [(120, 122), (122, 124)], 124⟩, ⟨116, Mode.active, [(116, 118), (118, 120)], 120⟩, ⟨112, Mode.active, [(112, 114), (114, 116)], 116⟩, ⟨108, Mode.active, [(108, 110), (110, 112)], 112⟩, ⟨104, Mode.active, [(104, 106), (106, 108)], 108⟩, ⟨100, Mode.active, [(100, 102), (102, 104)], 104⟩, ⟨96, Mode.active, [(96, 98), (98, 100)], 100⟩, ⟨92, Mode.active, [(92, 94), (94, 96)], 96⟩, ⟨88, Mode.active, [(88, 90), (90, 92)], 92⟩, ⟨84, Mode.active, [(84, 86), (86, 88)], 88⟩, ⟨80, Mode.active, [(80, 82), (82, 84)], 84⟩, ⟨76, Mode.active, [(76, 78), (78, 80)], 80⟩, ⟨72, Mode.active, [(72, 74), (74, 76)], 76⟩, ⟨68, Mode.active, [(68, 70), (70, 72)], 72⟩, ⟨64, Mode.active, [(64, 66), (66, 68)], 68⟩, ⟨60, Mode.active, [(60, 62), (62, 64)], 64⟩, ⟨56, Mode.active, [(56, 58), (58, 60)], 60⟩, ⟨52, Mode.active, [(52, 54), (54, 56)], 56⟩, ⟨48, Mode.active, [(48, 50), (50, 52)], 52⟩, ⟨44, Mode.active, [(44, 46), (46, 48)], 48⟩, ⟨40, Mode.active, [(40, 42), (42, 44)], 44⟩, ⟨36, Mode.active, [(36, 38), (38, 40)], 40⟩, ⟨32, Mode.active, [(32, 34), (34, 36)], 36⟩, ⟨28, Mode.active, [(28, 30), (30, 32)], 32⟩, ⟨24, Mode.active, [(24, 26), (26, 28)], 28⟩, ⟨20, Mode.active, [(20, 22), (22, 24)], 24⟩, ⟨16, Mode.active, [(16, 18), (18, 20)], 20⟩, ⟨12, Mode.active, [(12, 14), (14, 16)], 16⟩, ⟨8, Mode.active, [(8, 10), (10, 12)], 12⟩, ⟨4, Mode.active, [(4, 6), (6, 8)], 8⟩, ⟨0, Mode.active, [(0, 2), (2, 4)], 4⟩], [], "".toList⟩ : TState)
    = some (⟨[("Factorial".toList, [TPart.str "#(eq,".toList, TPart.marker 1, TPart.str ",1,1,(#(ml,".toList, TPart.marker 1, TPart.str ",#(cl,Factorial,#(su,".toList, TPart.marker 1, TPart.str ",1)))))".toList])], "l,7,#(cl,Factorial,#(su,7,1))))))))))))))))))))))))))))))))))))))))))))))".toList, "ml50ml49ml48ml47ml46ml45ml44ml43ml42ml41ml40ml39ml38ml37ml36ml35ml34ml33ml32ml31ml30ml29ml28ml27ml26ml25ml24ml23ml22ml21ml20ml19ml18ml17ml16ml15ml14ml13ml12ml11ml10ml9ml8m".toList, 0, [⟨170, Mode.active, [], 170⟩, ⟨167, Mode.active, [(167, 169), (169, 170)], 170⟩, ⟨164, Mode.active, [(164, 166), (166, 167)], 167⟩, ⟨160, Mode.active, [(160, 162), (162, 164)], 164⟩, ⟨156, Mode.active, [(156, 158), (158, 160)], 160⟩, ⟨152, Mode.active, [(152, 154), (154, 156)], 156⟩, ⟨148, Mode.active, [(148, 150), (150, 152)], 152⟩, ⟨144, Mode.active, [(144, 146), (146, 148)], 148⟩, ⟨140, Mode.active, [(140, 142), (142, 144)], 144⟩, ⟨136, Mode.active, [(136, 138), (138, 140)], 140⟩, ⟨132, Mode.active, [(132, 134), (134, 136)], 136⟩, ⟨128, Mode.active, [(128, 130), (130, 132)], 132⟩, ⟨124, Mode.active, [(124, 126), (126, 128)], 128⟩, ⟨120, Mode.active, [(120, 122), (122, 124)], 124⟩, ⟨116, Mode.active, [(116, 118), (118, 120)], 120⟩, ⟨112, Mode.active, [(112, 114), (114, 116)], 116⟩, ⟨108, Mode.active, [(108, 110), (110, 112)], 112⟩, ⟨104, Mode.active, [(104, 106), (106, 108)], 108⟩, ⟨100, Mode.active, [(100, 102), (102, 104)], 104⟩, ⟨96, Mode.active, [(96, 98), (98, 100)], 100⟩, ⟨92, Mode.active, [(92, 94), (94, 96)], 96⟩, ⟨88, Mode.active, [(88, 90), (90, 92)], 92⟩, ⟨84, Mode.active, [(84, 86), (86, 88)], 88⟩, ⟨80, Mode.active, [(80, 82), (82, 84)], 84⟩, ⟨76, Mode.active, [(76, 78), (78, 80)], 80⟩, ⟨72, Mode.active, [(72, 74), (74, 76)], 76⟩, ⟨68, Mode.active, [(68, 70), (70, 72)], 72⟩, ⟨64, Mode.active, [(64, 66), (66, 68)], 68⟩, ⟨60, Mode.active, [(60, 62), (62, 64)], 64⟩, ⟨56, Mode.active, [(56, 58), (58, 60)], 60⟩, ⟨52, Mode.active, [(52, 54), (54, 56)], 56⟩, ⟨48, Mode.active, [(48, 50), (50, 52)], 52⟩, ⟨44, Mode.active, [(44, 46), (46, 48)], 48⟩, ⟨40, Mode.active, [(40, 42), (42, 44)], 44⟩, ⟨36, Mode.active, [(36, 38), (38, 40)], 40⟩, ⟨32, Mode.active, [(32, 34), (34, 36)], 36⟩, ⟨28, Mode.active, [(28, 30), (30, 32)], 32⟩, ⟨24, Mode.active, [(24, 26), (26, 28)], 28⟩, ⟨20, Mode.active, [(20, 22), (22, 24)], 24⟩, ⟨16, Mode.active, [(16, 18), (18, 20)], 20⟩, ⟨12, Mode.active, [(12, 14), (14, 16)], 16⟩, ⟨8, Mode.active, [(8, 10), (10, 12)], 12⟩, ⟨4, Mode.active, [(4, 6), (6, 8)], 8⟩, ⟨0, Mode.active, [(0, 2), (2, 4)], 4⟩], [], "".toList⟩ : TState) := by decide

theorem factChunk5 : iterateCont 400 (⟨[("Factorial".toList, [TPart.str "#(eq,".toList, TPart.marker 1, TPart.str ",1,1,(#(ml,".toList, TPart.marker 1, TPart.str ",#(cl,Factorial,#(su,".toList, TPart.marker 1, TPart.str ",1)))))".toList])], "l,7,#(cl,Factorial,#(su,7,1))))))))))))))))))))))))))))))))))))))))))))))".toList, "ml50ml49ml48ml47ml46ml45ml44ml43ml42ml41ml40ml39ml38ml37ml36ml35ml34ml33ml32ml31ml30ml29ml28ml27ml26ml25ml24ml23ml22ml21ml20ml19ml18ml17ml16ml15ml14ml13ml12ml11ml10ml9ml8m".toList, 0, [⟨170, Mode.active, [], 170⟩, ⟨167, Mode.active, [(167, 169), (169, 170)], 170⟩, ⟨164, Mode.active, [(164, 166), (166, 167)], 167⟩, ⟨160, Mode.active, [(160, 162), (162, 164)], 164⟩, ⟨156, Mode.active, [(156, 158), (158, 160)], 160⟩, ⟨152, Mode.active, [(152, 154), (154, 156)], 156⟩, ⟨148, Mode.active, [(148, 150), (150, 152)], 152⟩, ⟨144, Mode.active, [(144, 146), (146, 148)], 148⟩, ⟨140, Mode.active, [(140, 142), (142, 144)], 144⟩, ⟨136, Mode.active, [(136, 138), (138, 140)], 140⟩, ⟨132, Mode.active, [(132, 134), (134, 136)], 136⟩, ⟨128, Mode.active, [(128, 130), (130, 132)], 132⟩, ⟨124, Mode.active, [(124, 126), (126, 128)], 128⟩, ⟨120, Mode.active, [(120, 122), (122, 124)], 124⟩, ⟨116, Mode.active, [(116, 118), (118, 120)], 120⟩, ⟨112, Mode.active, [(112, 114), (114, 116)], 116⟩, ⟨108, Mode.active, [(108, 110), (110, 112)], 112⟩, ⟨104, Mode.active, [(104, 106), (106, 108)], 108⟩, ⟨100, Mode.active, [(100, 102), (102, 104)], 104⟩, ⟨96, Mode.active, [(96, 98), (98, 100)], 100⟩, ⟨92, Mode.active, [(92, 94), (94, 96)], 96⟩, ⟨88, Mode.active, [(88, 90), (90, 92)], 92⟩, ⟨84, Mode.active, [(84, 86), (86, 88)], 88⟩, ⟨80, Mode.active, [(80, 82), (82, 84)], 84⟩, ⟨76, Mode.active, [(76, 78), (78, 80)], 80⟩, ⟨72, Mode.active, [(72, 74), (74, 76)], 76⟩, ⟨68, Mode.active, [(68, 70), (70, 72)], 72⟩, ⟨64, Mode.active, [(64, 66), (66, 68)], 68⟩, ⟨60, Mode.active, [(60, 62), (62, 64)], 64⟩, ⟨56, Mode.active, [(56, 58), (58, 60)], 60⟩, ⟨52, Mode.active, [(52, 54), (54, 56)], 56⟩, ⟨48, Mode.active, [(48, 50), (50, 52)], 52⟩, ⟨44, Mode.active, [(44, 46), (46, 48)], 48⟩, ⟨40, Mode.active, [(40, 42), (42, 44)], 44⟩, ⟨36, Mode.active, [(36, 38), (38, 40)], 40⟩, ⟨32, Mode.active, [(32, 34), (34, 36)], 36⟩, ⟨28, Mode.active, [(28, 30), (30, 32)], 32⟩, ⟨24, Mode.active, [(24, 26), (26, 28)], 28⟩, ⟨20, Mode.active, [(20, 22), (22, 24)], 24⟩, ⟨16, Mode.active, [(16, 18), (18, 20)], 20⟩, ⟨12, Mode.active, [(12, 14), (14, 16)], 16⟩, ⟨8, Mode.active, [(8, 10), (10, 12)], 12⟩, ⟨4, Mode.active, [(4, 6), (6, 8)], 8⟩, ⟨0, Mode.active, [(0, 2), (2, 4)], 4⟩], [], "".toList⟩ : TState)
    = some (⟨[("Factorial".toList, [TPart.str "#(eq,".toList, TPart.marker 1, TPart.str ",1,1,(#(ml,".toList, TPart.marker 1, TPart.str ",#(cl,Factorial,#(su,".toList, TPart.marker 1, TPart.str ",1)))))".toList])], "645100408832000)))))))))))))))))))))))))))))))".toList, "ml50ml49ml48ml47ml46ml45ml44ml43ml42ml41ml40ml39ml38ml37ml36ml35ml34ml33ml32ml31ml30ml29ml28ml27ml26ml25ml24ml23ml22ml21ml20121".toList, 0, [⟨120, Mode.active, [(120, 122), (122, 124)], 124⟩, ⟨116, Mode.active, [(116, 118), (118, 120)], 120⟩, ⟨112, Mode.active, [(112, 114), (114, 116)], 116⟩, ⟨108, Mode.active, [(108, 110), (110, 112)], 112⟩, ⟨104, Mode.active, [(104, 106), (106, 108)], 108⟩, ⟨100, Mode.active, [(100, 102), (102, 104)], 104⟩, ⟨96, Mode.active, [(96, 98), (98, 100)], 100⟩, ⟨92, Mode.active, [(92, 94), (94, 96)], 96⟩, ⟨88, Mode.active, [(88, 90), (90, 92)], 92⟩, ⟨84, Mode.active, [(84, 86), (86, 88)], 88⟩, ⟨80, Mode.active, [(80, 82), (82, 84)], 84⟩, ⟨76, Mode.active, [(76, 78), (78, 80)], 80⟩, ⟨72, Mode.active, [(72, 74), (74, 76)], 76⟩, ⟨68, Mode.active, [(68, 70), (70, 72)], 72⟩, ⟨64, Mode.active, [(64, 66), (66, 68)], 68⟩, ⟨60, Mode.active, [(60, 62), (62, 64)], 64⟩, ⟨56, Mode.active, [(56, 58), (58, 60)], 60⟩, ⟨52, Mode.active, [(52, 54), (54, 56)], 56⟩, ⟨48, Mode.active, [(48, 50), (50, 52)], 52⟩, ⟨44, Mode.active, [(44, 46), (46, 48)], 48⟩, ⟨40, Mode.active, [(40, 42), (42, 44)], 44⟩, ⟨36, Mode.active, [(36, 38), (38, 40)], 40⟩, ⟨32, Mode.active, [(32, 34), (34, 36)], 36⟩, ⟨28, Mode.active, [(28, 30), (30, 32)], 32⟩, ⟨24, Mode.active, [(24, 26), (26, 28)], 28⟩, ⟨20, Mode.active, [(20, 22), (22, 24)], 24⟩, ⟨16, Mode.active, [(16, 18), (18, 20)], 20⟩, ⟨12, Mode.active, [(12, 14), (14, 16)], 16⟩, ⟨8, Mode.active, [(8, 10), (10, 12)], 12⟩, ⟨4, Mode.active, [(4, 6), (6, 8)], 8⟩, ⟨0, Mode.active, [(0, 2), (2, 4)], 4⟩], [], "".toList⟩ : TState) := by decide

theorem factChunk6 : iterateCont 400 (⟨[("Factorial".toList, [TPart.str "#(eq,".toList, TPart.marker 1, TPart.str ",1,1,(#(ml,".toList, TPart.marker 1, TPart.str ",#(cl,Factorial,#(su,".toList, TPart.marker 1, TPart.str ",1)))))".toList])], "645100408832000)))))))))))))))))))))))))))))))".toList, "ml50ml49ml48ml47ml46ml45ml44ml43ml42ml41ml40ml39ml38ml37ml36ml35ml34ml33ml32ml31ml30ml29ml28ml27ml26ml25ml24ml23ml22ml21ml20121".toList, 0, [⟨120, Mode.active, [(120, 122), (122, 124)], 124⟩, ⟨116, Mode.active, [(116, 118), (118, 120)], 120⟩, ⟨112, Mode.active, [(112, 114), (114, 116)], 116⟩, ⟨108, Mode.active, [(108, 110), (110, 112)], 112⟩, ⟨104, Mode.active, [(104, 106), (106, 108)], 108⟩, ⟨100, Mode.active, [(100, 102), (102, 104)], 104⟩, ⟨96, Mode.active, [(96, 98), (98, 100)], 100⟩, ⟨92, Mode.active, [(92, 94), (94, 96)], 96⟩, ⟨88, Mode.active, [(88, 90), (90, 92)], 92⟩, ⟨84, Mode.active, [(84, 86), (86, 88)], 88⟩, ⟨80, Mode.active, [(80, 82), (82, 84)], 84⟩, ⟨76, Mode.active, [(76, 78), (78, 80)], 80⟩, ⟨72, Mode.active, [(72, 74), (74, 76)], 76⟩, ⟨68, Mode.active, [(68, 70), (70, 72)], 72⟩, ⟨64, Mode.active, [(64, 66), (66, 68)], 68⟩, ⟨60, Mode.active, [(60, 62), (62, 64)], 64⟩, ⟨56, Mode.active, [(56, 58), (58, 60)], 60⟩, ⟨52, Mode.active, [(52, 54), (54, 56)], 56⟩, ⟨48, Mode.active, [(48, 50), (50, 52)], 52⟩, ⟨44, Mode.active, [(44, 46), (46, 48)], 48⟩, ⟨40, Mode.active, [(40, 42), (42, 44)], 44⟩, ⟨36, Mode.active, [(36, 38), (38, 40)], 40⟩, ⟨32, Mode.active, [(32, 34), (34, 36)], 36⟩, ⟨28, Mode.active, [(28, 30), (30, 32)], 32⟩, ⟨24, Mode.active, [(24, 26), (26, 28)], 28⟩, ⟨20, Mode.active, [(20, 22), (22, 24)], 24⟩, ⟨16, Mode.active, [(16, 18), (18, 20)], 20⟩, ⟨12, Mode.active, [(12, 14), (14, 16)], 16⟩, ⟨8, Mode.active, [(8, 10), (10, 12)], 12⟩, ⟨4, Mode.active, [(4, 6), (6, 8)], 8⟩, ⟨0, Mode.active, [(0, 2), (2, 4)], 4⟩], [], "".toList⟩ : TState)
    = some (⟨[("Factorial".toList, [TPart.str "#(eq,".toList, TPart.marker 1, TPart.str ",1,1,(#(ml,".toList, TPart.marker 1, TPart.str ",#(cl,Factorial,#(su,".toList, TPart.marker 1, TPart.str ",1)))))".toList])], "95518194401280000000)))))))))))))))))".toList, "ml50ml49ml48ml47ml46ml45ml44ml43ml42ml41ml40ml39ml38ml37ml36ml35ml3486833176188118864".toList, 0, [⟨64, Mode.active, [(64, 66), (66, 68)], 68⟩, ⟨60, Mode.active, [(60, 62), (62, 64)], 64⟩, ⟨56, Mode.active, [(56, 58), (58, 60)], 60⟩, ⟨52, Mode.active, [(52, 54), (54, 56)], 56⟩, ⟨48, Mode.active, [(48, 50), (50, 52)], 52⟩, ⟨44, Mode.active, [(44, 46), (46, 48)], 48⟩, ⟨40, Mode.active, [(40, 42), (42, 44)], 44⟩, ⟨36, Mode.active, [(36, 38), (38, 40)], 40⟩, ⟨32, Mode.active, [(32, 34), (34, 36)], 36⟩, ⟨28, Mode.active, [(28, 30), (30, 32)], 32⟩, ⟨24, Mode.active, [(24, 26), (26, 28)], 28⟩, ⟨20, Mode.active, [(20, 22), (22, 24)], 24⟩, ⟨16, Mode.active, [(16, 18), (18, 20)], 20⟩, ⟨12, Mode.active, [(12, 14), (14, 16)], 16⟩, ⟨8, Mode.active, [(8, 10), (10, 12)], 12⟩, ⟨4, Mode.active, [(4, 6), (6, 8)], 8⟩, ⟨0, Mode.active, [(0, 2), (2, 4)], 4⟩], [], "".toList⟩ : TState) := by decide

theorem factChunk7 : iterateCont 400 (⟨[("Factorial".toList, [TPart.str "#(eq,".toList, TPart.marker 1, TPart.str ",1,1,(#(ml,".toList, TPart.marker 1, TPart.str ",#(cl,Factorial,#(su,".toList, TPart.marker 1, TPart.str ",1)))))".toList])], "95518194401280000000)))))))))))))))))".toList, "ml50ml49ml48ml47ml46ml45ml44ml43ml42ml41ml40ml39ml38ml37ml36ml35ml3486833176188118864".toList, 0, [⟨64, Mode.active, [(64, 66), (66, 68)], 68⟩, ⟨60, Mode.active, [(60, 62), (62, 64)], 64⟩, ⟨56, Mode.active, [(56, 58), (58, 60)], 60⟩, ⟨52, Mode.active, [(52, 54), (54, 56)], 56⟩, ⟨48, Mode.active, [(48, 50), (50, 52)], 52⟩, ⟨44, Mode.active, [(44, 46), (46, 48)], 48⟩, ⟨40, Mode.active, [(40, 42), (42, 44)], 44⟩, ⟨36, Mode.active, [(36, 38), (38, 40)], 40⟩, ⟨32, Mode.active, [(32, 34), (34, 36)], 36⟩, ⟨28, Mode.active, [(28, 30), (30, 32)], 32⟩, ⟨24, Mode.active, [(24, 26), (26, 28)], 28⟩, ⟨20, Mode.active, [(20, 22), (22, 24)], 24⟩, ⟨16, Mode.active, [(16, 18), (18, 20)], 20⟩, ⟨12, Mode.active, [(12, 14), (14, 16)], 16⟩, ⟨8, Mode.active, [(8, 10), (10, 12)], 12⟩, ⟨4, Mode.active, [(4, 6), (6, 8)], 8⟩, ⟨0, Mode.active, [(0, 2), (2, 4)], 4⟩], [], "".toList⟩ : TState)
    = some (⟨[("Factorial".toList, [TPart.str "#(eq,".toList, TPart.marker 1, TPart.str ",1,1,(#(ml,".toList, TPart.marker 1, TPart.str ",#(cl,Factorial,#(su,".toList, TPart.marker 1, TPart.str ",1)))))".toList])], "9898543142606244511569936384000000000))))))))".toList, "ml50ml49ml48ml47ml46ml45ml44ml43140500611775287".toList, 0, [⟨28, Mode.active, [(28, 30), (30, 32)], 32⟩, ⟨24, Mode.active, [(24, 26), (26, 28)], 28⟩, ⟨20, Mode.active, [(20, 22), (22, 24)], 24⟩, ⟨16, Mode.active, [(16, 18), (18, 20)], 20⟩, ⟨12, Mode.active, [(12, 14), (14, 16)], 16⟩, ⟨8, Mode.active, [(8, 10), (10, 12)], 12⟩, ⟨4, Mode.active, [(4, 6), (6, 8)], 8⟩, ⟨0, Mode.active, [(0, 2), (2, 4)], 4⟩], [], "".toList⟩ : TState) := by decide

theorem factChunk8 : iterateCont 400 (⟨[("Factorial".toList, [TPart.str "#(eq,".toList, TPart.marker 1, TPart.str ",1,1,(#(ml,".toList, TPart.marker 1, TPart.str ",#(cl,Factorial,#(su,".toList, TPart.marker 1, TPart.str ",1)))))".toList])], "9898543142606244511569936384000000000))))))))".toList, "ml50ml49ml48ml47ml46ml45ml44ml43140500611775287".toList, 0, [⟨28, Mode.active, [(28, 30), (30, 32)], 32⟩, ⟨24, Mode.active, [(24, 26), (26, 28)], 28⟩, ⟨20, Mode.active, [(20, 22), (22, 24)], 24⟩, ⟨16, Mode.active, [(16, 18), (18, 20)], 20⟩, ⟨12, Mode.active, [(12, 14), (14, 16)], 16⟩, ⟨8, Mode.active, [(8, 10), (10, 12)], 12⟩, ⟨4, Mode.active, [(4, 6), (6, 8)], 8⟩, ⟨0, Mode.active, [(0, 2), (2, 4)], 4⟩], [], "".toList⟩ : TState)
    = some (⟨[("Factorial".toList, [TPart.str "#(eq,".toList, TPart.marker 1, TPart.str ",1,1,(#(ml,".toList, TPart.marker 1, TPart.str ",#(cl,Factorial,#(su,".toList, TPart.marker 1, TPart.str ",1)))))".toList])], "4267560872252163321295376887552831379210240000000000)".toList, "ml5060828186403".toList, 0, [⟨0, Mode.active, [(0, 2), (2, 4)], 4⟩], [], "".toList⟩ : TState) := by decide

theorem factChunk9 : iterateCont 118 (⟨[("Factorial".toList, [TPart.str "#(eq,".toList, TPart.marker 1, TPart.str ",1,1,(#(ml,".toList, TPart.marker 1, TPart.str ",#(cl,Factorial,#(su,".toList, TPart.marker 1, TPart.str ",1)))))".toList])], "4267560872252163321295376887552831379210240000000000)".toList, "ml5060828186403".toList, 0, [⟨0, Mode.active, [(0, 2), (2, 4)], 4⟩], [], "".toList⟩ : TState)
    = some (⟨[("Factorial".toList, [TPart.str "#(eq,".toList, TPart.marker 1, TPart.str ",1,1,(#(ml,".toList, TPart.marker 1, TPart.str ",#(cl,Factorial,#(su,".toList, TPart.marker 1, TPart.str ",1)))))".toList])], "".toList, "30414093201713378043612608166064768844377641568960512000000000000".toList, 0, [], [], "".toList⟩ : TState) := by decide

theorem factIterAll : iterateCont 3718 (initState factorialStore [] factorialCl50)
    = some (⟨[("Factorial".toList, [TPart.str "#(eq,".toList, TPart.marker 1, TPart.str ",1,1,(#(ml,".toList, TPart.marker 1, TPart.str ",#(cl,Factorial,#(su,".toList, TPart.marker 1, TPart.str ",1)))))".toList])], "".toList, "30414093201713378043612608166064768844377641568960512000000000000".toList, 0, [], [], "".toList⟩ : TState) := by
  exact (iterateCont_trans 400 _ _ factChunk0 3318).trans
    ((iterateCont_trans 400 _ _ factChunk1 2918).trans
    ((iterateCont_trans 400 _ _ factChunk2 2518).trans
    ((iterateCont_trans 400 _ _ factChunk3 2118).trans
    ((iterateCont_trans 400 _ _ factChunk4 1718).trans
    ((iterateCont_trans 400 _ _ factChunk5 1318).trans
    ((iterateCont_trans 400 _ _ factChunk6 918).trans
    ((iterateCont_trans 400 _ _ factChunk7 518).trans
    ((iterateCont_trans 400 _ _ factChunk8 118).trans factChunk9))))))))

set_option maxHeartbeats 4000000

/-- C6: `ad`, `su` and `ml` parse their two arguments as signed integer
literals (an empty argument reads as 0 via `int(arg or "0")`) and return
the exact decimal text of A+B, A-B, A*B over arbitrary-precision integers;
and the Factorial form of scenario 1, applied to 50, evaluates to exactly
30414093201713378043612608166064768844377641568960512000000000000. -/
theorem C6_arbitrary_precision_arithmetic :
    (∀ (a b : Int) (forms : Forms) (sink : List Char),
      evalPrim "ad".toList [toDecInt a, toDecInt b] forms sink
        = (toDecInt (a + b), forms, sink) ∧
      evalPrim "su".toList [toDecInt a, toDecInt b] forms sink
        = (toDecInt (a - b), forms, sink) ∧
      evalPrim "ml".toList [toDecInt a, toDecInt b] forms sink
        = (toDecInt (a * b), forms, sink)) ∧
    intOfPyArg [] = some 0 ∧
    factorial50Output =
      some "30414093201713378043612608166064768844377641568960512000000000000".toList := by
  refine ⟨?_, by decide, ?_⟩
  · intro a b forms sink
    refine ⟨?_, ?_, ?_⟩
    · show ((ad [toDecInt a, toDecInt b]).getD [], forms, sink)
        = (toDecInt (a + b), forms, sink)
      simp [ad, argGet, intOfPyArg_toDecInt]
    · show ((su [toDecInt a, toDecInt b]).getD [], forms, sink)
        = (toDecInt (a - b), forms, sink)
      simp [su, argGet, intOfPyArg_toDecInt]
    · show ((ml [toDecInt a, toDecInt b]).getD [], forms, sink)
        = (toDecInt (a * b), forms, sink)
      simp [ml, argGet, intOfPyArg_toDecInt]
  · have hstep : step (⟨[("Factorial".toList, [TPart.str "#(eq,".toList, TPart.marker 1, TPart.str ",1,1,(#(ml,".toList, TPart.marker 1, TPart.str ",#(cl,Factorial,#(su,".toList, TPart.marker 1, TPart.str ",1)))))".toList])], "".toList, "30414093201713378043612608166064768844377641568960512000000000000".toList, 0, [], [], "".toList⟩ : TState) = StepRes.halt (⟨[("Factorial".toList, [TPart.str "#(eq,".toList, TPart.marker 1, TPart.str ",1,1,(#(ml,".toList, TPart.marker 1, TPart.str ",#(cl,Factorial,#(su,".toList, TPart.marker 1, TPart.str ",1)))))".toList])], "".toList, "30414093201713378043612608166064768844377641568960512000000000000".toList, 0, [], [], "".toList⟩ : TState) := by decide
    have hrun : runFuel 60000 (initState factorialStore [] factorialCl50)
        = some (⟨[("Factorial".toList, [TPart.str "#(eq,".toList, TPart.marker 1, TPart.str ",1,1,(#(ml,".toList, TPart.marker 1, TPart.str ",#(cl,Factorial,#(su,".toList, TPart.marker 1, TPart.str ",1)))))".toList])], "".toList, "30414093201713378043612608166064768844377641568960512000000000000".toList, 0, [], [], "".toList⟩ : TState) := by
      exact (runFuel_after 3718 _ _ factIterAll 56282).trans
        (runFuel_halt _ hstep 56281)
    show factorial50Output = _
    unfold factorial50Output
    rw [hrun]
    rfl

theorem isOrdinary_facts (c : Char) (hc : isOrdinary c = true) :
    skipChars.contains c = false ∧ c ≠ '(' ∧ c ≠ ',' ∧ c ≠ '#' ∧ c ≠ ')' := by
  simp only [isOrdinary, Bool.and_eq_true, Bool.not_eq_true',
    beq_eq_false_iff_ne, ne_eq] at hc
  obtain ⟨⟨⟨⟨h1, h2⟩, h3⟩, h4⟩, h5⟩ := hc
  exact ⟨h1, h2, h3, h4, h5⟩

theorem step_ordinary (st : TState) (c : Char) (rest : List Char)
    (h0 : st.scan = 0) (ha : st.active = c :: rest) (hc : isOrdinary c = true) :
    step st = StepRes.cont { st with active := rest, neutral := st.neutral ++ [c] } := by
  obtain ⟨h1, h2, h3, h4, h5⟩ := isOrdinary_facts c hc
  have hch : st.active[st.scan]? = some c := by rw [ha, h0]; simp
  unfold step
  rw [hch]
  dsimp only
  rw [if_neg (by simpa using h1), if_neg h2, if_neg h3, if_neg h4, if_neg h5]
  unfold moveActiveCharToNeutral
  rw [ha, h0]
  rfl

theorem step_comma (st : TState) (rest : List Char) (h0 : st.scan = 0)
    (ha : st.active = ',' :: rest) :
    step st = StepRes.cont (markArgumentBoundary { st with active := rest }) := by
  have hch : st.active[st.scan]? = some ',' := by rw [ha, h0]; simp
  unfold step
  rw [hch]
  dsimp only
  rw [if_neg (by decide), if_neg (by decide), if_pos rfl]
  unfold deleteActiveChar
  rw [h0, ha]
  rw [if_pos (by simp)]
  rfl

theorem step_hash_open (st : TState) (rest : List Char) (h0 : st.scan = 0)
    (ha : st.active = '#' :: '(' :: rest) :
    step st = StepRes.cont (beginFunction Mode.active { st with active := rest }) := by
  have hch : st.active[st.scan]? = some '#' := by rw [ha, h0]; simp
  have hpeek : peek st ['('] = true := by
    unfold peek
    rw [ha, h0]
    rw [if_neg (by simp)]
    simp [List.isPrefixOf]
  have hdel1 : deleteActiveChar st = { st with active := '(' :: rest } := by
    unfold deleteActiveChar
    rw [if_pos (by rw [ha, h0]; simp)]
    rw [ha, h0]
    simp
  have hdel2 : deleteActiveChar { st with active := '(' :: rest }
      = { st with active := rest } := by
    unfold deleteActiveChar
    rw [if_pos (by simp [h0])]
    simp [h0]
  unfold step
  rw [hch]
  dsimp only
  rw [if_neg (by decide), if_neg (by decide), if_neg (by decide), if_pos rfl,
    if_pos hpeek, hdel1, hdel2]

theorem consumeQuote_no_parens : ∀ (X rest : List Char),
    (∀ c ∈ X, c ≠ '(' ∧ c ≠ ')') →
    consumeQuote 1 (X ++ ')' :: rest) = some (X, rest) := by
  intro X
  induction X with
  | nil =>
      intro rest _
      simp [consumeQuote]
  | cons c X ih =>
      intro rest h
      obtain ⟨h1, h2⟩ := h c (by simp)
      rw [List.cons_append]
      conv_lhs => rw [consumeQuote]
      rw [if_neg h1, if_neg h2, ih rest (fun d hd => h d (by simp [hd]))]
      rfl

theorem step_quote (st : TState) (X rest : List Char) (h0 : st.scan = 0)
    (ha : st.active = '(' :: (X ++ ')' :: rest))
    (hX : ∀ c ∈ X, c ≠ '(' ∧ c ≠ ')') :
    step st = StepRes.cont { st with active := rest, neutral := st.neutral ++ X } := by
  have hch : st.active[st.scan]? = some '(' := by rw [ha, h0]; simp
  have hdrop : st.active.drop (st.scan + 1) = X ++ ')' :: rest := by
    rw [ha, h0]
    simp
  unfold step
  rw [hch]
  dsimp only
  rw [if_neg (by decide), if_pos rfl, hdrop, consumeQuote_no_parens X rest hX]
  rw [h0, ha]
  simp

theorem iter_ordinary : ∀ (X : List Char) (st : TState) (rest : List Char),
    st.scan = 0 → st.active = X ++ rest → (∀ c ∈ X, isOrdinary c = true) →
    iterateCont X.length st
      = some { st with active := rest, neutral := st.neutral ++ X } := by
  intro X
  induction X with
  | nil =>
      intro st rest h0 ha _
      simp only [List.nil_append] at ha
      simp only [List.length_nil, iterateCont, List.append_nil]
      rw [← ha]
  | cons c X ih =>
      intro st rest h0 ha hord
      have hstep := step_ordinary st c (X ++ rest) h0 (by simpa using ha)
        (hord c (by simp))
      rw [show (c :: X).length = X.length + 1 from rfl,
        iterateCont_step1 st _ hstep]
      rw [ih { st with active := X ++ rest, neutral := st.neutral ++ [c] } rest
        h0 rfl (fun d hd => hord d (by simp [hd]))]
      simp

theorem iterPrefix (forms : Forms) (sink : List Char) (N tail : List Char)
    (hN : ∀ c ∈ N, isOrdinary c = true) :
    iterateCont (5 + N.length)
        (initState forms sink ("#(cl,".toList ++ N ++ [','] ++ tail))
      = some ⟨forms, tail, 'c' :: 'l' :: N, 0,
          [⟨0, Mode.active, [(0, 2), (2, 2 + N.length)], 2 + N.length⟩], [], sink⟩ := by
  have s1 : step (initState forms sink ("#(cl,".toList ++ N ++ [','] ++ tail))
      = StepRes.cont (beginFunction Mode.active
          { initState forms sink ("#(cl,".toList ++ N ++ [','] ++ tail) with
            active := 'c' :: 'l' :: ',' :: (N ++ ',' :: tail) }) :=
    step_hash_open _ _ rfl (by simp [initState])
  have hst1 : beginFunction Mode.active
      { initState forms sink ("#(cl,".toList ++ N ++ [','] ++ tail) with
        active := 'c' :: 'l' :: ',' :: (N ++ ',' :: tail) }
      = ⟨forms, 'c' :: 'l' :: ',' :: (N ++ ',' :: tail), [], 0,
          [⟨0, Mode.active, [], 0⟩], [], sink⟩ := rfl
  rw [show 5 + N.length = (4 + N.length) + 1 from by omega,
    iterateCont_step1 _ _ s1, hst1]
  have hcl : iterateCont 2
      (⟨forms, 'c' :: 'l' :: ',' :: (N ++ ',' :: tail), [], 0,
        [⟨0, Mode.active, [], 0⟩], [], sink⟩ : TState)
      = some ⟨forms, ',' :: (N ++ ',' :: tail), ['c', 'l'], 0,
          [⟨0, Mode.active, [], 0⟩], [], sink⟩ := by
    have := iter_ordinary ['c', 'l']
      ⟨forms, 'c' :: 'l' :: ',' :: (N ++ ',' :: tail), [], 0,
        [⟨0, Mode.active, [], 0⟩], [], sink⟩
      (',' :: (N ++ ',' :: tail)) rfl rfl (by decide)
    simpa using this
  rw [show 4 + N.length = 2 + (2 + N.length) from by omega,
    iterateCont_trans 2 _ _ hcl (2 + N.length)]
  have s3 : step (⟨forms, ',' :: (N ++ ',' :: tail), ['c', 'l'], 0,
        [⟨0, Mode.active, [], 0⟩], [], sink⟩ : TState)
      = StepRes.cont ⟨forms, N ++ ',' :: tail, ['c', 'l'], 0,
          [⟨0, Mode.active, [(0, 2)], 2⟩], [], sink⟩ := by
    have := step_comma
      (⟨forms, ',' :: (N ++ ',' :: tail), ['c', 'l'], 0,
        [⟨0, Mode.active, [], 0⟩], [], sink⟩ : TState)
      (N ++ ',' :: tail) rfl rfl
    simpa [markArgumentBoundary] using this
  rw [show 2 + N.length = (1 + N.length) + 1 from by omega,
    iterateCont_step1 _ _ s3]
  have hrunN : iterateCont N.length
      (⟨forms, N ++ ',' :: tail, ['c', 'l'], 0,
        [⟨0, Mode.active, [(0, 2)], 2⟩], [], sink⟩ : TState)
      = some ⟨forms, ',' :: tail, 'c' :: 'l' :: N, 0,
          [⟨0, Mode.active, [(0, 2)], 2⟩], [], sink⟩ := by
    have := iter_ordinary N
      ⟨forms, N ++ ',' :: tail, ['c', 'l'], 0,
        [⟨0, Mode.active, [(0, 2)], 2⟩], [], sink⟩
      (',' :: tail) rfl rfl hN
    simpa using this
  rw [show 1 + N.length = N.length + 1 from by omega,
    iterateCont_trans N.length _ _ hrunN 1]
  have s5 : step (⟨forms, ',' :: tail, 'c' :: 'l' :: N, 0,
        [⟨0, Mode.active, [(0, 2)], 2⟩], [], sink⟩ : TState)
      = StepRes.cont ⟨forms, tail, 'c' :: 'l' :: N, 0,
          [⟨0, Mode.active, [(0, 2), (2, 2 + N.length)], 2 + N.length⟩], [], sink⟩ := by
    have := step_comma
      (⟨forms, ',' :: tail, 'c' :: 'l' :: N, 0,
        [⟨0, Mode.active, [(0, 2)], 2⟩], [], sink⟩ : TState)
      tail rfl rfl
    simpa [markArgumentBoundary,
      show N.length + 1 + 1 = 2 + N.length from by omega] using this
  rw [iterateCont_step1 _ _ s5]
  rw [show N.length + 1 + 1 = 2 + N.length from by omega]
  rfl

theorem iterateCont_one (st s : TState) (h : step st = StepRes.cont s) :
    iterateCont 1 st = some s := by
  simp [iterateCont, h]

/-- C8 as stated is false; this is the corrected form: protective quoting
is idempotent at a call argument provided X (and the form name N) consist
of ordinary characters only — no commas, no macro introducers `#`, no
parentheses, and no idle characters: for such N, X the run of
`#(cl,N,(X))` and the run of `#(cl,N,X)` pass through the same state just
before the closing `)` and hence agree completely from there on, for
corresponding fuel. -/
theorem C8_protective_quote_amended (forms : Forms) (sink : List Char)
    (N X : List Char) (hN : ∀ c ∈ N, isOrdinary c = true)
    (hX : ∀ c ∈ X, isOrdinary c = true) (f : Nat) :
    runFuel (6 + N.length + f)
        (initState forms sink ("#(cl,".toList ++ N ++ ",(".toList ++ X ++ "))".toList))
      = runFuel (5 + N.length + X.length + f)
        (initState forms sink ("#(cl,".toList ++ N ++ ",".toList ++ X ++ ")".toList)) := by
  have hXp : ∀ c ∈ X, c ≠ '(' ∧ c ≠ ')' := fun c hc =>
    ⟨(isOrdinary_facts c (hX c hc)).2.1, (isOrdinary_facts c (hX c hc)).2.2.2.2⟩
  have h1 : iterateCont (6 + N.length)
      (initState forms sink ("#(cl,".toList ++ N ++ ",(".toList ++ X ++ "))".toList))
      = some ⟨forms, [')'], 'c' :: 'l' :: (N ++ X), 0,
          [⟨0, Mode.active, [(0, 2), (2, 2 + N.length)], 2 + N.length⟩], [], sink⟩ := by
    have hpe : "#(cl,".toList ++ N ++ ",(".toList ++ X ++ "))".toList
        = "#(cl,".toList ++ N ++ [','] ++ ('(' :: (X ++ [')', ')'])) := by
      simp
    rw [hpe, show 6 + N.length = (5 + N.length) + 1 from by omega,
      iterateCont_trans (5 + N.length) _ _
        (iterPrefix forms sink N ('(' :: (X ++ [')', ')'])) hN) 1]
    have sq : step (⟨forms, '(' :: (X ++ [')', ')']), 'c' :: 'l' :: N, 0,
          [⟨0, Mode.active, [(0, 2), (2, 2 + N.length)], 2 + N.length⟩], [],
          sink⟩ : TState)
        = StepRes.cont ⟨forms, [')'], 'c' :: 'l' :: (N ++ X), 0,
            [⟨0, Mode.active, [(0, 2), (2, 2 + N.length)], 2 + N.length⟩], [],
            sink⟩ := by
      have := step_quote
        (⟨forms, '(' :: (X ++ [')', ')']), 'c' :: 'l' :: N, 0,
          [⟨0, Mode.active, [(0, 2), (2, 2 + N.length)], 2 + N.length⟩], [],
          sink⟩ : TState)
        X [')'] rfl (by simp) hXp
      simpa using this
    exact iterateCont_one _ _ sq
  have h2 : iterateCont (5 + N.length + X.length)
      (initState forms sink ("#(cl,".toList ++ N ++ ",".toList ++ X ++ ")".toList))
      = some ⟨forms, [')'], 'c' :: 'l' :: (N ++ X), 0,
          [⟨0, Mode.active, [(0, 2), (2, 2 + N.length)], 2 + N.length⟩], [], sink⟩ := by
    have hpe : "#(cl,".toList ++ N ++ ",".toList ++ X ++ ")".toList
        = "#(cl,".toList ++ N ++ [','] ++ (X ++ [')']) := by
      simp
    rw [hpe,
      iterateCont_trans (5 + N.length) _ _
        (iterPrefix forms sink N (X ++ [')']) hN) X.length]
    have := iter_ordinary X
      (⟨forms, X ++ [')'], 'c' :: 'l' :: N, 0,
        [⟨0, Mode.active, [(0, 2), (2, 2 + N.length)], 2 + N.length⟩], [],
        sink⟩ : TState)
      [')'] rfl rfl hX
    simpa using this
  rw [runFuel_after (6 + N.length) _ _ h1 f,
    runFuel_after (5 + N.length + X.length) _ _ h2 f]

/-- Witness for C8 (amended): name `q`, text `ab`, one extra fuel unit. -/
theorem C8_protective_quote_amended_witness :
    runFuel (6 + "q".toList.length + 1)
        (initState [] []
          ("#(cl,".toList ++ "q".toList ++ ",(".toList ++ "ab".toList ++ "))".toList))
      = runFuel (5 + "q".toList.length + "ab".toList.length + 1)
        (initState [] []
          ("#(cl,".toList ++ "q".toList ++ ",".toList ++ "ab".toList ++ ")".toList)) :=
  C8_protective_quote_amended [] [] "q".toList "ab".toList
    (by decide) (by decide) 1

/-- Counterexample to C8 as stated: `X = "("` contains no commas and no
macro introducers, yet `#(cl,q,(X))` and `#(cl,q,X)` produce different
outputs (`clq()` versus `clq`) — the unquoted parenthesis eats the call's
closing parenthesis. -/
theorem C8_protective_quote_counterexample :
    (runFuel 20 (initState [] [] "#(cl,q,(())".toList)).map TState.neutral
      = some "clq()".toList ∧
    (runFuel 20 (initState [] [] "#(cl,q,()".toList)).map TState.neutral
      = some "clq".toList ∧
    ¬ ((some "clq()".toList : Option (List Char)) = some "clq".toList) := by
  refine ⟨by decide, by decide, by decide⟩
